import Mathlib

/-!
# neon-bulk-migrator: migration / rollback state machine

A shallow embedding of `main.go`.  The program talks to four collaborators (a shell
that runs the migrate / rollback commands, the branch provider, the registry
database and the local file `state.msgpack`).  Each of them is an oracle whose answer
may depend on everything that happened before; every call is appended to a log
together with the answer it received.
-/

namespace NeonBulkMigrator

/-! ## Data model -/

/-- Registry identifier of a tenant (`any` in the source): the scalar kinds a registry
id column yields. -/
inductive IDValue where
  | int (n : Int)
  | text (s : String)
  | null
deriving DecidableEq, Repr

/-- Go `type tenant struct`. -/
structure tenant where
  ID : IDValue
  Branch : String
deriving DecidableEq, Repr

/-- Go `type migrationProcess struct`. -/
structure migrationProcess where
  Success : Bool
  Tenants : List tenant
deriving DecidableEq, Repr

/-- Go zero value `migrationProcess{}`. -/
def migrationProcess.zero : migrationProcess := ⟨false, []⟩

/-- The package-level flag variables of the source. -/
structure Config where
  RollbackMode : Bool
  MainConnectionURL : String
  TableName : String
  TableConnectionColumn : String
  TableIDColumn : String
  TableBranchColumn : String
  MigrateCommandName : String
  RollbackCommandName : String
  TenantSchemaConnectionURL : String
  NeonRoleName : String
  NeonRolePassword : String
  NeonAPIKey : String
  NeonProjectID : String
  NeonDatabaseName : String
deriving DecidableEq, Repr

/-- Content of `state.msgpack`: either the msgpack encoding of a state (which
`msgpack.Unmarshal` decodes back to that state) or bytes that do not decode. -/
inductive FileData where
  | encoded (s : migrationProcess)
  | garbage
deriving DecidableEq, Repr

/-- One row of the registry `SELECT id, branch, connection`. -/
structure Row where
  id : IDValue
  branch : String
  connection : String
deriving DecidableEq, Repr

/-- How the row stream of the registry query ends: `rows.Next()` returns false at the
end of the result set and also when fetching fails (then `rows.Err()` is set), or a
row is delivered whose `rows.Scan` fails. -/
inductive RowsEnd where
  | done
  | iterError
  | scanError
deriving DecidableEq, Repr

/-- Result of `mainDb.Query`: an error, or the rows that scan successfully followed by
the way the stream ends. -/
inductive QueryResult where
  | error
  | rows (rs : List Row) (ending : RowsEnd)
deriving DecidableEq, Repr

/-- What `exec.Cmd` does with the command started by `performShellCommand`. -/
inductive ExecResult where
  | startFailed
  | exitError (code : Int)
  | waitFailed
  | success
deriving DecidableEq, Repr

/-- Result of `os.WriteFile`: success, or failure leaving some content behind. -/
inductive WriteResult where
  | ok
  | failed (left : Option FileData)
deriving DecidableEq, Repr

/-- Result of `os.ReadFile("state.msgpack")`. -/
inductive ReadResult where
  | data (d : FileData)
  | notExist
  | otherError
deriving DecidableEq, Repr

/-- The errors the program returns. -/
inductive Err where
  | neonClient
  | connectFailed
  | pingFailed
  | decodeFailed
  | loadFailed
  | notExist
  | mainRollbackFailed
  | createEndpointFailed
  | updateMainDbFailed
  | deleteBranchFailed
  | queryFailed
  | rowScanFailed
  | createBranchFailed
  | migrationStatus (code : Int)
deriving DecidableEq, Repr

/-- An external operation together with the answer it received. -/
inductive Event where
  | exec (cmd connectionUrl : String) (status : Int)
  | createEndpoint (project branch : String) (host : Option String)
  | updateRow (sql connectionUrl : String) (id : IDValue) (returned : Option String)
  | deleteBranch (project branch : String) (ok : Bool)
  | createBranch (project parent : String) (id : Option String)
  | query (sql : String) (res : QueryResult)
  | writeFile (s : migrationProcess) (ok : Bool)
  | removeFile (ok : Bool)
deriving DecidableEq, Repr

/-- A log entry: the operation and the content of the state file when it started. -/
structure Entry where
  ev : Event
  file : Option FileData
deriving DecidableEq, Repr

/-- The world the process runs in: the state file and the log of operations so far. -/
structure World where
  file : Option FileData
  log : List Entry
deriving DecidableEq, Repr

/-- The operations performed so far, oldest first. -/
def World.trace (w : World) : List Event := w.log.map Entry.ev

/-- Record an operation. -/
def World.emit (w : World) (e : Event) : World :=
  { w with log := w.log ++ [⟨e, w.file⟩] }

/-- Replace the content of the state file. -/
def World.setFile (w : World) (f : Option FileData) : World :=
  { w with file := f }

/-- The collaborators.  Every answer may depend on the operations performed so far. -/
structure Env where
  pathEscape : String → String
  newClient : Bool
  connect : Bool
  ping : Bool
  readDenied : Bool
  exec : List Event → String → String → ExecResult
  createProjectEndpoint : List Event → String → String → Option String
  queryRow : List Event → String → String → IDValue → Option String
  deleteProjectBranch : List Event → String → String → Bool
  createProjectBranch : List Event → String → String → Option String
  query : List Event → String → QueryResult
  writeFile : List Event → migrationProcess → WriteResult
  remove : List Event → Bool

/-- How a call ends: it returns, the process exits (`os.Exit`), or it panics. -/
inductive Res (α : Type) where
  | ret (a : α) (w : World)
  | exit (code : Int) (w : World)
  | panicked (w : World)

/-- The world a call leaves behind. -/
def Res.world {α : Type} : Res α → World
  | .ret _ w => w
  | .exit _ w => w
  | .panicked w => w

/-- How a call ends, without the world it leaves behind. -/
inductive Outcome (α : Type) where
  | returned (a : α)
  | exited (code : Int)
  | panicked
deriving DecidableEq, Repr

/-- The way a call ends. -/
def Res.outcome {α : Type} : Res α → Outcome α
  | .ret a _ => .returned a
  | .exit c _ => .exited c
  | .panicked _ => .panicked

/-- Two runs end the same way after the same sequence of external operations. -/
def SameRun {α : Type} (r r1 : Res α) : Prop :=
  r.outcome = r1.outcome ∧ r.world.trace = r1.world.trace

instance {α : Type} [DecidableEq α] (r r1 : Res α) : Decidable (SameRun r r1) :=
  inferInstanceAs (Decidable (r.outcome = r1.outcome ∧ r.world.trace = r1.world.trace))

/-- Sequencing: the continuation runs only when the first call returns; `os.Exit` and a
panic end the run. -/
def Res.bind {α β : Type} (r : Res α) (f : α → World → Res β) : Res β :=
  match r with
  | .ret a w => f a w
  | .exit c w => .exit c w
  | .panicked w => .panicked w

/-! ## StateStore -/

/-- Model of `os.ReadFile("state.msgpack")`. -/
def readFile (env : Env) (w : World) : ReadResult :=
  if env.readDenied then .otherError
  else match w.file with
    | none => .notExist
    | some d => .data d

/-- Model of `msgpack.Unmarshal` into a `migrationProcess`. -/
def unmarshal : FileData → Option migrationProcess
  | .encoded s => some s
  | .garbage => none

/-- Go `loadState` on the result of reading the state file. -/
def loadStateOf (cfg : Config) (r : ReadResult) : Except Err migrationProcess :=
  match r with
  | .data b =>
    match unmarshal b with
    | none => .error .decodeFailed
    | some config => .ok config
  | .otherError => .error .loadFailed
  | .notExist =>
    if cfg.RollbackMode then .error .notExist
    else .ok migrationProcess.zero

/-- Go `loadState`. -/
def loadState (env : Env) (cfg : Config) (w : World) : Except Err migrationProcess :=
  loadStateOf cfg (readFile env w)

/-- Go `(*migrationProcess).write`: a failed `os.WriteFile` exits with status 1. -/
def migrationProcess.write (env : Env) (m : migrationProcess) (w : World) : Res Unit :=
  match env.writeFile w.trace m with
  | .ok => .ret () ((w.emit (.writeFile m true)).setFile (some (.encoded m)))
  | .failed left => .exit 1 ((w.emit (.writeFile m false)).setFile left)

/-! ## CommandRunner -/

/-- Go `performShellCommand`: the status the function returns. -/
def shellStatus : ExecResult → Int
  | .startFailed => 1
  | .exitError code => code
  | .waitFailed => 1
  | .success => 0

/-- Go `performShellCommand`. -/
def performShellCommand (env : Env) (cmd connectionUrl : String) (w : World) : Int × World :=
  let status := shellStatus (env.exec w.trace cmd connectionUrl)
  (status, w.emit (.exec cmd connectionUrl status))

/-! ## RollbackCoordinator -/

/-- The connection URL `fmt.Sprintf("postgresql://%s:%s@%s/%s", ...)`. -/
def connectionUrl (env : Env) (cfg : Config) (host : String) : String :=
  "postgresql://" ++ env.pathEscape cfg.NeonRoleName ++ ":" ++
    env.pathEscape cfg.NeonRolePassword ++ "@" ++ host ++ "/" ++ cfg.NeonDatabaseName

/-- The registry `UPDATE ... RETURNING` statement of `performRollback`. -/
def updateSql (cfg : Config) : String :=
  "UPDATE " ++ cfg.TableName ++ " SET " ++ cfg.TableBranchColumn ++ " = $1, " ++
    cfg.TableConnectionColumn ++ " = $2 WHERE " ++ cfg.TableIDColumn ++ " = $3 RETURNING " ++
    cfg.TableBranchColumn

/-- The registry `SELECT` statement of `migrate`. -/
def selectSql (cfg : Config) : String :=
  "SELECT " ++ cfg.TableIDColumn ++ ", " ++ cfg.TableBranchColumn ++ ", " ++
    cfg.TableConnectionColumn ++ " FROM " ++ cfg.TableName

/-- Lines 166-170 of `performRollback`: drop entry `i` from the state and write it. -/
def removeAndWrite (env : Env) (i : Nat) (state : migrationProcess) (w : World) :
    Res (Option Err × migrationProcess) :=
  let state1 : migrationProcess :=
    { state with Tenants := state.Tenants.take i ++ state.Tenants.drop (i + 1) }
  (state1.write env w).bind fun _ w1 => .ret (none, state1) w1

/-- Body of the `for` loop of `performRollback` at index `i`: the error it returns with
(none when the iteration completes) and the state. -/
def rollbackBody (env : Env) (cfg : Config) (i : Nat) (state : migrationProcess) (w : World) :
    Res (Option Err × migrationProcess) :=
  match state.Tenants[i]? with
  | none => .panicked w
  | some tenant =>
    let host := env.createProjectEndpoint w.trace cfg.NeonProjectID tenant.Branch
    let w1 := w.emit (.createEndpoint cfg.NeonProjectID tenant.Branch host)
    match host with
    | none => .ret (some .createEndpointFailed, state) w1
    | some h =>
      let url := connectionUrl env cfg h
      let sql := updateSql cfg
      let returned := env.queryRow w1.trace sql url tenant.ID
      let w2 := w1.emit (.updateRow sql url tenant.ID returned)
      match returned with
      | none => .ret (some .updateMainDbFailed, state) w2
      | some branch =>
        if branch ≠ tenant.Branch ∧ branch ≠ "" then
          let ok := env.deleteProjectBranch w2.trace cfg.NeonProjectID tenant.Branch
          let w3 := w2.emit (.deleteBranch cfg.NeonProjectID tenant.Branch ok)
          if ok then removeAndWrite env i state w3
          else .ret (some .deleteBranchFailed, state) w3
        else removeAndWrite env i state w2

/-- The `for i := len(state.Tenants) - 1; i >= 0; i--` loop of `performRollback`; the
first argument is `i + 1`. -/
def rollbackLoop (env : Env) (cfg : Config) : Nat → migrationProcess → World → Res (Option Err)
  | 0, _, w => .ret none w
  | i + 1, state, w =>
    (rollbackBody env cfg i state w).bind fun r w1 =>
      match r.1 with
      | none => rollbackLoop env cfg i r.2 w1
      | some e => .ret (some e) w1

/-- The statement `_ = os.Remove("state.msgpack")`: the error is ignored. -/
def removeState (env : Env) (w : World) : World :=
  let ok := env.remove w.trace
  let w1 := w.emit (.removeFile ok)
  if ok then w1.setFile none else w1

/-- Go `performRollback`. -/
def performRollback (env : Env) (cfg : Config) (state : migrationProcess) (w : World) :
    Res (Option Err) :=
  let r := performShellCommand env cfg.RollbackCommandName cfg.TenantSchemaConnectionURL w
  if r.1 ≠ 0 then .ret (some .mainRollbackFailed) r.2
  else
    (rollbackLoop env cfg state.Tenants.length state r.2).bind fun err w1 =>
      match err with
      | some e => .ret (some e) w1
      | none => .ret none (removeState env w1)

/-! ## MigrationOrchestrator -/

/-- The `for rows.Next()` loop of `migrate`: the rows still to come, the way the stream
ends, and the in-memory state.  Returns the error the loop is left with (none when the
loop runs to its end) and the in-memory state. -/
def tenantLoop (env : Env) (cfg : Config) :
    List Row → RowsEnd → migrationProcess → World → Res (Option Err × migrationProcess)
  | [], ending, state, w =>
    match ending with
    | .scanError => .ret (some .rowScanFailed, state) w
    | .done => .ret (none, state) w
    | .iterError => .ret (none, state) w
  | row :: rest, ending, state, w =>
    let created := env.createProjectBranch w.trace cfg.NeonProjectID row.branch
    let w1 := w.emit (.createBranch cfg.NeonProjectID row.branch created)
    match created with
    | none => .ret (some .createBranchFailed, state) w1
    | some newBranchId =>
      let state1 : migrationProcess :=
        { state with Tenants := state.Tenants ++ [⟨row.id, newBranchId⟩] }
      (state1.write env w1).bind fun _ w2 =>
        let r := performShellCommand env cfg.MigrateCommandName row.connection w2
        if r.1 ≠ 0 then .ret (some (.migrationStatus r.1), state1) r.2
        else tenantLoop env cfg rest ending state1 r.2

/-- The deferred function of `migrate`; `err` is the error `migrate` is returning. -/
def finish (env : Env) (cfg : Config) (migrationSuccess : Bool) (state : migrationProcess)
    (err : Option Err) (w : World) : Res (Option Err) :=
  if migrationSuccess then
    (({ state with Success := true } : migrationProcess).write env w).bind fun _ w1 =>
      .ret err w1
  else
    (performRollback env cfg state w).bind fun rerr w1 =>
      match rerr with
      | some _ => .exit 1 w1
      | none => .ret err w1

/-- The part of `migrate` after the state has been reset: main-schema migration, the
registry query, the tenant loop and the deferred function. -/
def migrateFresh (env : Env) (cfg : Config) (w : World) : Res (Option Err) :=
  let state := migrationProcess.zero
  let r := performShellCommand env cfg.MigrateCommandName cfg.TenantSchemaConnectionURL w
  if r.1 ≠ 0 then
    let r1 := performShellCommand env cfg.RollbackCommandName cfg.TenantSchemaConnectionURL r.2
    .exit r.1 r1.2
  else
    let sql := selectSql cfg
    let res := env.query r.2.trace sql
    let w1 := r.2.emit (.query sql res)
    match res with
    | .error => finish env cfg false state (some .queryFailed) w1
    | .rows rs ending =>
      (tenantLoop env cfg rs ending state w1).bind fun r w2 =>
        match r.1 with
        | some e => finish env cfg false r.2 (some e) w2
        | none => finish env cfg true r.2 none w2

/-- Go `migrate`. -/
def migrate (env : Env) (cfg : Config) (w : World) : Res (Option Err) :=
  if !env.newClient then .ret (some .neonClient) w
  else if !env.connect then .ret (some .connectFailed) w
  else if !env.ping then .ret (some .pingFailed) w
  else
    match loadState env cfg w with
    | .error e => .ret (some e) w
    | .ok state =>
      if cfg.RollbackMode then performRollback env cfg state w
      else if !state.Success ∧ state.Tenants.length ≠ 0 then
        (performRollback env cfg state w).bind fun err w1 =>
          match err with
          | some e => .ret (some e) w1
          | none => migrateFresh env cfg w1
      else migrateFresh env cfg w

/-- Go `main`: the error `mainCmd.Execute()` returns is discarded, so a run that returns
ends with status 0; `os.Exit` ends it with the given status, a panic with status 2. -/
def main (env : Env) (cfg : Config) (w : World) : Int × World :=
  match migrate env cfg w with
  | .ret _ w1 => (0, w1)
  | .exit c w1 => (c, w1)
  | .panicked w1 => (2, w1)

/-! ## Concrete collaborators used in the examples -/

/-- Flags of the example runs. -/
def exampleConfig : Config :=
  { RollbackMode := false, MainConnectionURL := "main", TableName := "t",
    TableConnectionColumn := "c", TableIDColumn := "i", TableBranchColumn := "b",
    MigrateCommandName := "mig", RollbackCommandName := "rb",
    TenantSchemaConnectionURL := "schema", NeonRoleName := "r", NeonRolePassword := "p",
    NeonAPIKey := "k", NeonProjectID := "pr", NeonDatabaseName := "db" }

/-- Whether an operation is a branch creation. -/
def Event.isCreateBranch : Event → Bool
  | .createBranch _ _ _ => true
  | _ => false

/-- The scenario of the specification: the registry holds `(1, b0, c1)` and `(2, b0, c2)`,
branch creation answers `b1` then `b2`, the migrate command exits 3 on the second
tenant, every other call succeeds, the registry update returns the empty string. -/
def scenarioEnv : Env :=
  { pathEscape := id, newClient := true, connect := true, ping := true, readDenied := false,
    exec := fun _ cmd url => if cmd = "mig" ∧ url = "c2" then .exitError 3 else .success,
    createProjectEndpoint := fun _ _ branch => some ("h-" ++ branch),
    queryRow := fun _ _ _ _ => some "",
    deleteProjectBranch := fun _ _ _ => true,
    createProjectBranch := fun h _ _ => if h.any Event.isCreateBranch then some "b2" else some "b1",
    query := fun _ _ => .rows [⟨.int 1, "b0", "c1"⟩, ⟨.int 2, "b0", "c2"⟩] .done,
    writeFile := fun _ _ => .ok,
    remove := fun _ => true }

/-- Branch arguments of the `DeleteProjectBranch` calls of a trace, in order. -/
def deleteCalls : List Event → List String
  | [] => []
  | .deleteBranch _ branch _ :: rest => branch :: deleteCalls rest
  | _ :: rest => deleteCalls rest

/-- A collaborator set like `scenarioEnv` whose registry update returns `zz` for tenant 2
and `b1` for every other tenant. -/
def raceEnv : Env :=
  { scenarioEnv with
    queryRow := fun _ _ _ id => if id = .int 2 then some "zz" else some "b1" }

/-- The state recorded by the scenario: tenants `(1, b1)` and `(2, b2)`. -/
def scenarioState : migrationProcess :=
  ⟨false, [⟨.int 1, "b1"⟩, ⟨.int 2, "b2"⟩]⟩

/-- The per-tenant operations of a rollback: endpoint creation on a branch, registry
update of a tenant id, and the tenant list written to the state file. -/
inductive TenantOp where
  | endpoint (branch : String)
  | update (id : IDValue)
  | persist (tenants : List tenant)
deriving DecidableEq, Repr

/-- The per-tenant operations of a trace, in order. -/
def tenantOps : List Event → List TenantOp
  | [] => []
  | .createEndpoint _ branch _ :: rest => .endpoint branch :: tenantOps rest
  | .updateRow _ _ id _ :: rest => .update id :: tenantOps rest
  | .writeFile s _ :: rest => .persist s.Tenants :: tenantOps rest
  | _ :: rest => tenantOps rest

/-- Reverse-order rollback as the specification words it, for entries listed newest
first: endpoint and registry update for the newest entry, then the state without that
entry is persisted, then the same for the entries before it. -/
def undoOrder : List tenant → List TenantOp
  | [] => []
  | t :: older =>
    [.endpoint t.Branch, .update t.ID, .persist older.reverse] ++ undoOrder older

/-- Branch arguments of the `CreateProjectEndpoint` calls of a trace, in order. -/
def endpointCalls : List Event → List String
  | [] => []
  | .createEndpoint _ branch _ :: rest => branch :: endpointCalls rest
  | _ :: rest => endpointCalls rest

/-- Tenant ids of the registry `UPDATE` calls of a trace, in order. -/
def updateCalls : List Event → List IDValue
  | [] => []
  | .updateRow _ _ id _ :: rest => id :: updateCalls rest
  | _ :: rest => updateCalls rest

/-- The `os.Remove` calls of a trace. -/
def removeCalls : List Event → List Bool
  | [] => []
  | .removeFile ok :: rest => ok :: removeCalls rest
  | _ :: rest => removeCalls rest

/-- The provider and registry calls of a trace that failed. -/
def failedCalls : List Event → List Event
  | [] => []
  | .createEndpoint p b none :: rest => .createEndpoint p b none :: failedCalls rest
  | .updateRow s u i none :: rest => .updateRow s u i none :: failedCalls rest
  | .deleteBranch p b false :: rest => .deleteBranch p b false :: failedCalls rest
  | _ :: rest => failedCalls rest

/-- Ids of the branches created by the successful `CreateProjectBranch` calls of a trace. -/
def createdBranches : List Event → List String
  | [] => []
  | .createBranch _ _ (some id) :: rest => id :: createdBranches rest
  | _ :: rest => createdBranches rest

/-- Command and `CONNECTION_URL` of the shell commands of a trace, in order. -/
def execCalls : List Event → List (String × String)
  | [] => []
  | .exec cmd url _ :: rest => (cmd, url) :: execCalls rest
  | _ :: rest => execCalls rest

/-- Content of the state file at the moment each shell command of a log is started. -/
def execSnapshots : List Entry → List (Option FileData)
  | [] => []
  | ⟨.exec _ _ _, file⟩ :: rest => file :: execSnapshots rest
  | _ :: rest => execSnapshots rest

/-- The states with `Success = true` that a trace writes (or tries to write). -/
def successWrites : List Event → List migrationProcess
  | [] => []
  | .writeFile s _ :: rest =>
    if s.Success then s :: successWrites rest else successWrites rest
  | _ :: rest => successWrites rest

/-- The records of the rows processed so far: row ids paired with created branch ids. -/
def records (rows : List Row) (bs : List String) : List tenant :=
  List.zipWith (fun row b => ⟨row.id, b⟩) rows bs

/-- The operations of a tenant loop that runs to its end over `rows`, creating the
branches `bs`, starting from the recorded tenants `T`: per row, branch creation from the
row's current branch, the state write with the new record appended, and the migrate
command on the row's connection value exiting 0. -/
def loopEvents (cfg : Config) (S : Bool) : List tenant → List Row → List String → List Event
  | T, row :: rows, b :: bs =>
    [.createBranch cfg.NeonProjectID row.branch (some b),
     .writeFile ⟨S, T ++ [⟨row.id, b⟩]⟩ true,
     .exec cfg.MigrateCommandName row.connection 0] ++
      loopEvents cfg S (T ++ [⟨row.id, b⟩]) rows bs
  | _, _, _ => []

/-- Record a list of operations, none of which changes the state file. -/
def World.emits (w : World) (evs : List Event) : World :=
  { w with log := w.log ++ evs.map fun e => ⟨e, w.file⟩ }

/-- The operations of an iteration on entry `t` that gets as far as the state write:
endpoint creation, registry update returning `b`, and the branch deletion when `b` is
non-empty and differs from `t.Branch`. -/
def StepOk (env : Env) (cfg : Config) (t : tenant) (evs : List Event) : Prop :=
  ∃ h b, evs =
    [.createEndpoint cfg.NeonProjectID t.Branch (some h),
     .updateRow (updateSql cfg) (connectionUrl env cfg h) t.ID (some b)] ++
      (if b ≠ t.Branch ∧ b ≠ "" then [.deleteBranch cfg.NeonProjectID t.Branch true] else [])

/-- The operations of an iteration on entry `t` that fails with error `e`. -/
def StepFails (env : Env) (cfg : Config) (t : tenant) (evs : List Event) (e : Err) : Prop :=
  (evs = [.createEndpoint cfg.NeonProjectID t.Branch none] ∧ e = .createEndpointFailed ∧
      ∃ hist, env.createProjectEndpoint hist cfg.NeonProjectID t.Branch = none) ∨
    (∃ h, evs =
        [.createEndpoint cfg.NeonProjectID t.Branch (some h),
         .updateRow (updateSql cfg) (connectionUrl env cfg h) t.ID none] ∧
      e = .updateMainDbFailed ∧
      ∃ hist, env.queryRow hist (updateSql cfg) (connectionUrl env cfg h) t.ID = none) ∨
    (∃ h b, evs =
        [.createEndpoint cfg.NeonProjectID t.Branch (some h),
         .updateRow (updateSql cfg) (connectionUrl env cfg h) t.ID (some b),
         .deleteBranch cfg.NeonProjectID t.Branch false] ∧
      e = .deleteBranchFailed ∧
      ∃ hist, env.deleteProjectBranch hist cfg.NeonProjectID t.Branch = false)

/-- A collaborator set like `scenarioEnv` in which endpoint creation fails on branch `b1`. -/
def endpointFailEnv : Env :=
  { scenarioEnv with
    createProjectEndpoint := fun _ _ branch => if branch = "b1" then none else some ("h-" ++ branch) }

/-- The two registry rows of the scenario. -/
def scenarioRows : List Row := [⟨.int 1, "b0", "c1"⟩, ⟨.int 2, "b0", "c2"⟩]

/-- The flags of the examples with `--rollback-mode` set. -/
def rollbackConfig : Config := { exampleConfig with RollbackMode := true }

/-- A collaborator set like `scenarioEnv` in which every shell command exits 0. -/
def successEnv : Env :=
  { scenarioEnv with exec := fun _ _ _ => .success }

/-- A collaborator set like `successEnv` whose registry holds two rows but whose row
stream breaks after the first one: `rows.Next()` returns false with `rows.Err()` set. -/
def brokenStreamEnv : Env :=
  { successEnv with query := fun _ _ => .rows [⟨.int 1, "b0", "c1"⟩] .iterError }

/-- Whether an operation is a shell command that exited non-zero. -/
def Event.isFailedExec : Event → Bool
  | .exec _ _ status => status != 0
  | _ => false

/-- The scenario of the specification on a registry connection that behaves like the
`pgx` connection of the source: like `scenarioEnv`, but the registry update fails
(`conn busy`) once a shell command has exited non-zero.  In the scenario that command is
the migrate command of tenant 2, which makes the tenant loop return (main.go:289) with
the rows of the registry `SELECT` still open. -/
def busyEnv : Env :=
  { scenarioEnv with
    queryRow := fun hist _ _ _ => if hist.any Event.isFailedExec then none else some "" }

/-! ## Basic facts about the world -/

@[simp] theorem trace_emit (w : World) (e : Event) : (w.emit e).trace = w.trace ++ [e] := by
  simp [World.emit, World.trace]

@[simp] theorem file_emit (w : World) (e : Event) : (w.emit e).file = w.file := rfl

@[simp] theorem log_emit (w : World) (e : Event) :
    (w.emit e).log = w.log ++ [⟨e, w.file⟩] := rfl

@[simp] theorem trace_setFile (w : World) (f : Option FileData) :
    (w.setFile f).trace = w.trace := rfl

@[simp] theorem file_setFile (w : World) (f : Option FileData) : (w.setFile f).file = f := rfl

@[simp] theorem log_setFile (w : World) (f : Option FileData) : (w.setFile f).log = w.log := rfl

@[simp] theorem deleteCalls_append (xs ys : List Event) :
    deleteCalls (xs ++ ys) = deleteCalls xs ++ deleteCalls ys := by
  induction xs with
  | nil => rfl
  | cons x xs ih => cases x <;> simp [deleteCalls, ih]

@[simp] theorem trace_emits (w : World) (evs : List Event) :
    (w.emits evs).trace = w.trace ++ evs := by
  simp [World.emits, World.trace, Function.comp_def]

@[simp] theorem file_emits (w : World) (evs : List Event) : (w.emits evs).file = w.file := rfl

theorem emit_eq_emits (w : World) (e : Event) : w.emit e = w.emits [e] := rfl

theorem emits_emit (w : World) (evs : List Event) (e : Event) :
    (w.emits evs).emit e = w.emits (evs ++ [e]) := by
  simp [World.emits, World.emit]

@[simp] theorem Res.bind_ret {α β : Type} (a : α) (w : World) (f : α → World → Res β) :
    (Res.ret a w).bind f = f a w := rfl

@[simp] theorem Res.bind_exit {α β : Type} (c : Int) (w : World) (f : α → World → Res β) :
    (Res.exit c w : Res α).bind f = .exit c w := rfl

@[simp] theorem Res.bind_panicked {α β : Type} (w : World) (f : α → World → Res β) :
    (Res.panicked w : Res α).bind f = .panicked w := rfl

@[simp] theorem trace_removeState (env : Env) (w : World) :
    (removeState env w).trace = w.trace ++ [.removeFile (env.remove w.trace)] := by
  simp only [removeState]
  split <;> simp

theorem performRollback_of_zero (env : Env) (cfg : Config) (state : migrationProcess)
    (w : World)
    (hx : shellStatus
      (env.exec w.trace cfg.RollbackCommandName cfg.TenantSchemaConnectionURL) = 0) :
    performRollback env cfg state w =
      (rollbackLoop env cfg state.Tenants.length state
        (w.emit (.exec cfg.RollbackCommandName cfg.TenantSchemaConnectionURL 0))).bind
        fun err w1 =>
          match err with
          | some e => .ret (some e) w1
          | none => .ret none (removeState env w1) := by
  simp [performRollback, performShellCommand, hx]

theorem performRollback_of_nonzero (env : Env) (cfg : Config) (state : migrationProcess)
    (w : World)
    (hx : shellStatus
      (env.exec w.trace cfg.RollbackCommandName cfg.TenantSchemaConnectionURL) ≠ 0) :
    performRollback env cfg state w =
      .ret (some .mainRollbackFailed)
        (w.emit (.exec cfg.RollbackCommandName cfg.TenantSchemaConnectionURL
          (shellStatus
            (env.exec w.trace cfg.RollbackCommandName cfg.TenantSchemaConnectionURL)))) := by
  simp [performRollback, performShellCommand, hx]

theorem write_ok (env : Env) (m : migrationProcess) (w : World)
    (h : env.writeFile w.trace m = .ok) :
    m.write env w = .ret () ((w.emit (.writeFile m true)).setFile (some (.encoded m))) := by
  simp [migrationProcess.write, h]

theorem write_failed (env : Env) (m : migrationProcess) (w : World) (left : Option FileData)
    (h : env.writeFile w.trace m = .failed left) :
    m.write env w = .exit 1 ((w.emit (.writeFile m false)).setFile left) := by
  simp [migrationProcess.write, h]

theorem write_cases (env : Env) (m : migrationProcess) (w : World) :
    (m.write env w = .ret () ((w.emit (.writeFile m true)).setFile (some (.encoded m))) ∧
      env.writeFile w.trace m = .ok) ∨
    (∃ left, m.write env w = .exit 1 ((w.emit (.writeFile m false)).setFile left) ∧
      env.writeFile w.trace m = .failed left) := by
  cases hw : env.writeFile w.trace m with
  | ok => exact Or.inl ⟨write_ok _ _ _ hw, rfl⟩
  | failed l => exact Or.inr ⟨l, write_failed _ _ _ _ hw, rfl⟩

/-! ## RollbackCoordinator: one iteration -/

theorem removeAndWrite_last (env : Env) (S : Bool) (older : List tenant) (t : tenant)
    (w : World) :
    removeAndWrite env older.length ⟨S, older ++ [t]⟩ w =
      (migrationProcess.write env ⟨S, older⟩ w).bind fun _ w1 => .ret (none, ⟨S, older⟩) w1 := by
  simp [removeAndWrite]

theorem removeAndWrite_cases (env : Env) (S : Bool) (older : List tenant) (t : tenant)
    (w : World) :
    (removeAndWrite env older.length ⟨S, older ++ [t]⟩ w =
        .ret (none, ⟨S, older⟩)
          ((w.emit (.writeFile ⟨S, older⟩ true)).setFile (some (.encoded ⟨S, older⟩))) ∧
      env.writeFile w.trace ⟨S, older⟩ = .ok) ∨
    (∃ left, removeAndWrite env older.length ⟨S, older ++ [t]⟩ w =
        .exit 1 ((w.emit (.writeFile ⟨S, older⟩ false)).setFile left) ∧
      env.writeFile w.trace ⟨S, older⟩ = .failed left) := by
  rw [removeAndWrite_last]
  cases hw : env.writeFile w.trace ⟨S, older⟩ with
  | ok => left; simp [write_ok _ _ _ hw]
  | failed l => right; exact ⟨l, by simp [write_failed _ _ _ _ hw]⟩

/-- The three ways an iteration of the rollback loop on the last entry `t` ends: it
fails and returns an error with state and file untouched, it completes leaving the
shortened state written, or the state write fails and the process exits with status 1. -/
theorem rollbackBody_cases (env : Env) (cfg : Config) (S : Bool) (older : List tenant)
    (t : tenant) (w : World) :
    (∃ evs e, rollbackBody env cfg older.length ⟨S, older ++ [t]⟩ w =
        .ret (some e, ⟨S, older ++ [t]⟩) (w.emits evs) ∧ StepFails env cfg t evs e) ∨
    (∃ evs, rollbackBody env cfg older.length ⟨S, older ++ [t]⟩ w =
        .ret (none, ⟨S, older⟩)
          (((w.emits evs).emit (.writeFile ⟨S, older⟩ true)).setFile
            (some (.encoded ⟨S, older⟩))) ∧
      StepOk env cfg t evs ∧ env.writeFile (w.trace ++ evs) ⟨S, older⟩ = .ok) ∨
    (∃ evs left, rollbackBody env cfg older.length ⟨S, older ++ [t]⟩ w =
        .exit 1 (((w.emits evs).emit (.writeFile ⟨S, older⟩ false)).setFile left) ∧
      StepOk env cfg t evs ∧ env.writeFile (w.trace ++ evs) ⟨S, older⟩ = .failed left) := by
  unfold rollbackBody
  simp only [List.getElem?_concat_length]
  cases h1 : env.createProjectEndpoint w.trace cfg.NeonProjectID t.Branch with
  | none =>
    left
    exact ⟨[.createEndpoint cfg.NeonProjectID t.Branch none], .createEndpointFailed, rfl,
      Or.inl ⟨rfl, rfl, _, h1⟩⟩
  | some h =>
    simp only []
    cases h2 : env.queryRow (w.emit (.createEndpoint cfg.NeonProjectID t.Branch (some h))).trace
        (updateSql cfg) (connectionUrl env cfg h) t.ID with
    | none =>
      left
      exact ⟨[.createEndpoint cfg.NeonProjectID t.Branch (some h),
          .updateRow (updateSql cfg) (connectionUrl env cfg h) t.ID none],
        .updateMainDbFailed, by simp [emit_eq_emits, World.emits],
        Or.inr (Or.inl ⟨h, rfl, rfl, _, h2⟩)⟩
    | some b =>
      simp only []
      by_cases hc : b ≠ t.Branch ∧ b ≠ ""
      · rw [if_pos hc]
        cases h3 : env.deleteProjectBranch
            ((w.emit (.createEndpoint cfg.NeonProjectID t.Branch (some h))).emit
              (.updateRow (updateSql cfg) (connectionUrl env cfg h) t.ID (some b))).trace
            cfg.NeonProjectID t.Branch with
        | false =>
          left
          exact ⟨[.createEndpoint cfg.NeonProjectID t.Branch (some h),
              .updateRow (updateSql cfg) (connectionUrl env cfg h) t.ID (some b),
              .deleteBranch cfg.NeonProjectID t.Branch false],
            .deleteBranchFailed, by simp [emit_eq_emits, World.emits],
            Or.inr (Or.inr ⟨h, b, rfl, rfl, _, h3⟩)⟩
        | true =>
          right
          simp only [if_true]
          have hev : ((w.emit (.createEndpoint cfg.NeonProjectID t.Branch (some h))).emit
              (.updateRow (updateSql cfg) (connectionUrl env cfg h) t.ID (some b))).emit
              (.deleteBranch cfg.NeonProjectID t.Branch true) =
              w.emits [.createEndpoint cfg.NeonProjectID t.Branch (some h),
                .updateRow (updateSql cfg) (connectionUrl env cfg h) t.ID (some b),
                .deleteBranch cfg.NeonProjectID t.Branch true] := by
            simp [emit_eq_emits, World.emits]
          rw [hev]
          have hok : StepOk env cfg t [.createEndpoint cfg.NeonProjectID t.Branch (some h),
                .updateRow (updateSql cfg) (connectionUrl env cfg h) t.ID (some b),
                .deleteBranch cfg.NeonProjectID t.Branch true] :=
            ⟨h, b, by simp [hc]⟩
          rcases removeAndWrite_cases env S older t (w.emits _) with hr | ⟨l, hr⟩
          · exact Or.inl ⟨_, hr.1, hok, by simpa using hr.2⟩
          · exact Or.inr ⟨_, l, hr.1, hok, by simpa using hr.2⟩
      · rw [if_neg hc]
        right
        have hev : (w.emit (.createEndpoint cfg.NeonProjectID t.Branch (some h))).emit
              (.updateRow (updateSql cfg) (connectionUrl env cfg h) t.ID (some b)) =
              w.emits [.createEndpoint cfg.NeonProjectID t.Branch (some h),
                .updateRow (updateSql cfg) (connectionUrl env cfg h) t.ID (some b)] := by
            simp [emit_eq_emits, World.emits]
        rw [hev]
        have hok : StepOk env cfg t [.createEndpoint cfg.NeonProjectID t.Branch (some h),
              .updateRow (updateSql cfg) (connectionUrl env cfg h) t.ID (some b)] :=
          ⟨h, b, by simp [hc]⟩
        rcases removeAndWrite_cases env S older t (w.emits _) with hr | ⟨l, hr⟩
        · exact Or.inl ⟨_, hr.1, hok, by simpa using hr.2⟩
        · exact Or.inr ⟨_, l, hr.1, hok, by simpa using hr.2⟩

@[simp] theorem tenantOps_append (xs ys : List Event) :
    tenantOps (xs ++ ys) = tenantOps xs ++ tenantOps ys := by
  induction xs with
  | nil => rfl
  | cons x xs ih => cases x <;> simp [tenantOps, ih]

@[simp] theorem endpointCalls_append (xs ys : List Event) :
    endpointCalls (xs ++ ys) = endpointCalls xs ++ endpointCalls ys := by
  induction xs with
  | nil => rfl
  | cons x xs ih => cases x <;> simp [endpointCalls, ih]

@[simp] theorem updateCalls_append (xs ys : List Event) :
    updateCalls (xs ++ ys) = updateCalls xs ++ updateCalls ys := by
  induction xs with
  | nil => rfl
  | cons x xs ih => cases x <;> simp [updateCalls, ih]

@[simp] theorem removeCalls_append (xs ys : List Event) :
    removeCalls (xs ++ ys) = removeCalls xs ++ removeCalls ys := by
  induction xs with
  | nil => rfl
  | cons x xs ih => cases x <;> simp [removeCalls, ih]

@[simp] theorem failedCalls_append (xs ys : List Event) :
    failedCalls (xs ++ ys) = failedCalls xs ++ failedCalls ys := by
  induction xs with
  | nil => rfl
  | cons x xs ih =>
    cases x with
    | createEndpoint p b h => cases h <;> simp [failedCalls, ih]
    | updateRow q u i r => cases r <;> simp [failedCalls, ih]
    | deleteBranch p b ok => cases ok <;> simp [failedCalls, ih]
    | _ => simp [failedCalls, ih]

@[simp] theorem createdBranches_append (xs ys : List Event) :
    createdBranches (xs ++ ys) = createdBranches xs ++ createdBranches ys := by
  induction xs with
  | nil => rfl
  | cons x xs ih =>
    cases x with
    | createBranch p b r => cases r <;> simp [createdBranches, ih]
    | _ => simp [createdBranches, ih]

@[simp] theorem execCalls_append (xs ys : List Event) :
    execCalls (xs ++ ys) = execCalls xs ++ execCalls ys := by
  induction xs with
  | nil => rfl
  | cons x xs ih => cases x <;> simp [execCalls, ih]

@[simp] theorem execSnapshots_append (xs ys : List Entry) :
    execSnapshots (xs ++ ys) = execSnapshots xs ++ execSnapshots ys := by
  induction xs with
  | nil => rfl
  | cons x xs ih =>
    obtain ⟨ev, f⟩ := x
    cases ev <;> simp [execSnapshots, ih]

@[simp] theorem successWrites_append (xs ys : List Event) :
    successWrites (xs ++ ys) = successWrites xs ++ successWrites ys := by
  induction xs with
  | nil => rfl
  | cons x xs ih =>
    cases x with
    | writeFile m ok => cases h : m.Success <;> simp [successWrites, ih, h]
    | _ => simp [successWrites, ih]

/-! ## StateStore: `loadState` -/

/-- C7 as stated fails: a state file that is present and decodes to the empty state
makes `loadState` return the empty state without error, in rollback mode too. -/
theorem loadState_empty_state_from_present_file :
    loadState scenarioEnv { exampleConfig with RollbackMode := true }
        ⟨some (.encoded ⟨false, []⟩), []⟩ = .ok ⟨false, []⟩ ∧
      readFile scenarioEnv ⟨some (.encoded ⟨false, []⟩), []⟩ ≠ .notExist :=
  ⟨rfl, by decide⟩

/-- C7 (amended): `loadState` returns the empty state without error exactly when the
state file is missing outside rollback mode or is present and decodes to the empty
state; a missing file in rollback mode is an error, an undecodable file is an error in
both modes, and a decodable file yields the decoded state in both modes. -/
theorem loadState_cases (env : Env) (cfg : Config) (w : World) :
    (loadState env cfg w = .ok ⟨false, []⟩ ↔
        (readFile env w = .notExist ∧ cfg.RollbackMode = false) ∨
          readFile env w = .data (.encoded ⟨false, []⟩)) ∧
      (readFile env w = .notExist → cfg.RollbackMode = true →
        loadState env cfg w = .error .notExist) ∧
      (readFile env w = .data .garbage → loadState env cfg w = .error .decodeFailed) ∧
      (∀ s, readFile env w = .data (.encoded s) → loadState env cfg w = .ok s) := by
  unfold loadState
  generalize readFile env w = r
  refine ⟨?_, ?_, ?_, ?_⟩
  · cases r with
    | data d =>
      cases d with
      | encoded s => simp [loadStateOf, unmarshal]
      | garbage => simp [loadStateOf, unmarshal]
    | notExist => cases h : cfg.RollbackMode <;> simp [loadStateOf, h, migrationProcess.zero]
    | otherError => simp [loadStateOf]
  · intro h hm; subst h; simp [loadStateOf, hm]
  · intro h; subst h; simp [loadStateOf, unmarshal]
  · intro s h; subst h; simp [loadStateOf, unmarshal]

/-- Witness of `loadState_cases`: with no state file and outside rollback mode the empty
state is loaded. -/
theorem loadState_cases_witness :
    loadState scenarioEnv exampleConfig ⟨none, []⟩ = .ok ⟨false, []⟩ :=
  (loadState_cases scenarioEnv exampleConfig ⟨none, []⟩).1.2 (Or.inl ⟨by decide, by decide⟩)

/-! ## RollbackCoordinator: the branch-deletion decision -/

theorem deleteCalls_removeAndWrite (env : Env) (i : Nat) (state : migrationProcess)
    (w : World) :
    deleteCalls (removeAndWrite env i state w).world.trace = deleteCalls w.trace := by
  rcases write_cases env
    { state with Tenants := state.Tenants.take i ++ state.Tenants.drop (i + 1) } w with
    h | ⟨l, h⟩ <;> simp [removeAndWrite, h.1, Res.world, deleteCalls]

/-- C1 as stated fails: rolling back `scenarioState` against `raceEnv`, the registry
returns `zz` for tenant 2 (non-empty, different from `b2`) and the branch `b2` is deleted;
it returns `b1` for tenant 1 (equal to the recorded branch) and no branch is deleted. -/
theorem performRollback_deletes_on_mismatch :
    (performRollback raceEnv exampleConfig scenarioState
        ⟨some (.encoded scenarioState), []⟩).world.trace =
      [.exec "rb" "schema" 0,
       .createEndpoint "pr" "b2" (some "h-b2"),
       .updateRow "UPDATE t SET b = $1, c = $2 WHERE i = $3 RETURNING b"
         "postgresql://r:p@h-b2/db" (.int 2) (some "zz"),
       .deleteBranch "pr" "b2" true,
       .writeFile ⟨false, [⟨.int 1, "b1"⟩]⟩ true,
       .createEndpoint "pr" "b1" (some "h-b1"),
       .updateRow "UPDATE t SET b = $1, c = $2 WHERE i = $3 RETURNING b"
         "postgresql://r:p@h-b1/db" (.int 1) (some "b1"),
       .writeFile ⟨false, []⟩ true,
       .removeFile true] := by
  decide

/-- C1 (amended): when the loop body of `performRollback` processes entry `t` and the
registry update returns `b`, it calls `DeleteProjectBranch` (once, on `t.Branch`) exactly
when `b` is non-empty and differs from `t.Branch`; otherwise it makes no delete call. -/
theorem rollbackBody_delete_decision (env : Env) (cfg : Config) (i : Nat)
    (state : migrationProcess) (w : World) (t : tenant) (h b : String)
    (ht : state.Tenants[i]? = some t)
    (hh : env.createProjectEndpoint w.trace cfg.NeonProjectID t.Branch = some h)
    (hb : env.queryRow (w.trace ++ [.createEndpoint cfg.NeonProjectID t.Branch (some h)])
      (updateSql cfg) (connectionUrl env cfg h) t.ID = some b) :
    deleteCalls (rollbackBody env cfg i state w).world.trace =
      deleteCalls w.trace ++ (if b ≠ t.Branch ∧ b ≠ "" then [t.Branch] else []) := by
  have hb1 : env.queryRow (w.emit (.createEndpoint cfg.NeonProjectID t.Branch (some h))).trace
      (updateSql cfg) (connectionUrl env cfg h) t.ID = some b := by simpa using hb
  unfold rollbackBody
  simp only [ht, hh, hb1]
  by_cases hc : b ≠ t.Branch ∧ b ≠ ""
  · rw [if_pos hc, if_pos hc]
    cases env.deleteProjectBranch
        ((w.emit (.createEndpoint cfg.NeonProjectID t.Branch (some h))).emit
          (.updateRow (updateSql cfg) (connectionUrl env cfg h) t.ID (some b))).trace
        cfg.NeonProjectID t.Branch
    · simp [Res.world, deleteCalls]
    · simp [deleteCalls_removeAndWrite, deleteCalls]
  · rw [if_neg hc, if_neg hc]
    simp [deleteCalls_removeAndWrite, deleteCalls]

/-- Witness of `rollbackBody_delete_decision`: tenant 2 of `scenarioState` against
`raceEnv`, where the registry returns `zz`. -/
theorem rollbackBody_delete_decision_witness :
    deleteCalls (rollbackBody raceEnv exampleConfig 1 scenarioState
      ⟨some (.encoded scenarioState), []⟩).world.trace =
      deleteCalls [] ++ (if "zz" ≠ "b2" ∧ "zz" ≠ "" then ["b2"] else []) :=
  rollbackBody_delete_decision raceEnv exampleConfig 1 scenarioState
    ⟨some (.encoded scenarioState), []⟩ ⟨.int 2, "b2"⟩ "h-b2" "zz" (by decide) (by decide)
    (by decide)

/-! ## RollbackCoordinator: reverse order -/

theorem stepOk_tenantOps {env : Env} {cfg : Config} {t : tenant} {evs : List Event}
    (h : StepOk env cfg t evs) : tenantOps evs = [.endpoint t.Branch, .update t.ID] := by
  obtain ⟨h, b, rfl⟩ := h
  by_cases hc : b ≠ t.Branch ∧ b ≠ "" <;> simp [hc, NeonBulkMigrator.tenantOps]

theorem rollbackLoop_succ (env : Env) (cfg : Config) (i : Nat) (state : migrationProcess)
    (w : World) :
    rollbackLoop env cfg (i + 1) state w =
      (rollbackBody env cfg i state w).bind fun r w1 =>
        match r.1 with
        | none => rollbackLoop env cfg i r.2 w1
        | some e => .ret (some e) w1 := rfl

theorem rollbackLoop_reverse_order (env : Env) (cfg : Config) (S : Bool)
    (hep : ∀ hist p b, env.createProjectEndpoint hist p b ≠ none)
    (hq : ∀ hist q u i, env.queryRow hist q u i ≠ none)
    (hdel : ∀ hist p b, env.deleteProjectBranch hist p b = true)
    (ts : List tenant) :
    ∀ w, (∃ w1, rollbackLoop env cfg ts.length ⟨S, ts⟩ w = .ret none w1 ∧
        tenantOps w1.trace = tenantOps w.trace ++ undoOrder ts.reverse) ∨
      (∃ w1 done, rollbackLoop env cfg ts.length ⟨S, ts⟩ w = .exit 1 w1 ∧
        tenantOps w1.trace = tenantOps w.trace ++ done ∧ done <+: undoOrder ts.reverse ∧
        ∃ hist m left, env.writeFile hist m = .failed left) := by
  induction ts using List.reverseRecOn with
  | nil => intro w; exact Or.inl ⟨w, rfl, by simp [undoOrder]⟩
  | append_singleton older t ih =>
    intro w
    rw [List.length_append, List.length_singleton, rollbackLoop_succ]
    rcases rollbackBody_cases env cfg S older t w with
      ⟨evs, e, -, hf⟩ | ⟨evs, hb, hok, -⟩ | ⟨evs, l, hb, hok, hwf⟩
    · rcases hf with ⟨-, -, hist, h⟩ | ⟨_, -, -, hist, h⟩ | ⟨_, _, -, -, hist, h⟩
      · exact absurd h (hep _ _ _)
      · exact absurd h (hq _ _ _ _)
      · rw [hdel] at h; cases h
    · rw [hb]
      simp only [Res.bind_ret]
      rcases ih (((w.emits evs).emit (.writeFile ⟨S, older⟩ true)).setFile
          (some (.encoded ⟨S, older⟩))) with ⟨w1, h1, h2⟩ | ⟨w1, done, h1, h2, h3, h4⟩
      · refine Or.inl ⟨w1, h1, ?_⟩
        rw [h2]
        simp [stepOk_tenantOps hok, undoOrder, tenantOps]
      · refine Or.inr ⟨w1, [.endpoint t.Branch, .update t.ID, .persist older] ++ done, h1, ?_,
          ?_, h4⟩
        · rw [h2]
          simp [stepOk_tenantOps hok, tenantOps]
        · simpa [undoOrder] using h3
    · rw [hb]
      refine Or.inr ⟨_, [.endpoint t.Branch, .update t.ID, .persist older], rfl, ?_, ?_,
        _, _, l, hwf⟩
      · simp [stepOk_tenantOps hok, tenantOps]
      · simp [undoOrder]

/-- C2: when the main-schema rollback command and every provider and registry call
succeed, `performRollback` on a state with tenants `[T1, ..., Tn]` returns without error
(no index out of range), and its per-tenant operations are, in this order: endpoint and
registry update for `Tn`, state with tenants `[T1, ..., Tn-1]` persisted, endpoint and
update for `Tn-1`, `[T1, ..., Tn-2]` persisted, and so on down to `T1` and the empty
list.  The one other course of events is that a state write fails: the process then exits
with status 1 and the operations performed are an initial part of that sequence. -/
theorem performRollback_reverse_order (env : Env) (cfg : Config) (state : migrationProcess)
    (w : World)
    (hexec : shellStatus
      (env.exec w.trace cfg.RollbackCommandName cfg.TenantSchemaConnectionURL) = 0)
    (hep : ∀ hist p b, env.createProjectEndpoint hist p b ≠ none)
    (hq : ∀ hist q u i, env.queryRow hist q u i ≠ none)
    (hdel : ∀ hist p b, env.deleteProjectBranch hist p b = true) :
    (∃ w1, performRollback env cfg state w = .ret none w1 ∧
        tenantOps w1.trace = tenantOps w.trace ++ undoOrder state.Tenants.reverse) ∨
      (∃ w1 done, performRollback env cfg state w = .exit 1 w1 ∧
        tenantOps w1.trace = tenantOps w.trace ++ done ∧
        done <+: undoOrder state.Tenants.reverse ∧
        ∃ hist m left, env.writeFile hist m = .failed left) := by
  obtain ⟨S, ts⟩ := state
  rcases rollbackLoop_reverse_order env cfg S hep hq hdel ts
    (w.emit (.exec cfg.RollbackCommandName cfg.TenantSchemaConnectionURL 0)) with
    ⟨w1, h1, h2⟩ | ⟨w1, done, h1, h2, h3, h4⟩
  · refine Or.inl ⟨removeState env w1, ?_, ?_⟩
    · rw [performRollback_of_zero _ _ _ _ hexec, h1]; rfl
    · simp [h2, tenantOps]
  · refine Or.inr ⟨w1, done, ?_, ?_, h3, h4⟩
    · rw [performRollback_of_zero _ _ _ _ hexec, h1]; rfl
    · simpa [tenantOps] using h2

/-- Witness of `performRollback_reverse_order`: rolling back the two recorded tenants of
the scenario, where every state write succeeds. -/
theorem performRollback_reverse_order_witness :
    ∃ w1, performRollback scenarioEnv exampleConfig scenarioState
        ⟨some (.encoded scenarioState), []⟩ = .ret none w1 ∧
      tenantOps w1.trace = tenantOps [] ++
        [.endpoint "b2", .update (.int 2), .persist [⟨.int 1, "b1"⟩],
         .endpoint "b1", .update (.int 1), .persist []] :=
  (performRollback_reverse_order scenarioEnv exampleConfig scenarioState
    ⟨some (.encoded scenarioState), []⟩ (by decide) (by intro _ _ _; simp [scenarioEnv])
    (by intro _ _ _ _; simp [scenarioEnv]) (by intro _ _ _; rfl)).resolve_right
    (by rintro ⟨_, _, _, _, _, _, _, _, h⟩; cases h)

/-! ## RollbackCoordinator: failure of one step -/

theorem stepOk_calls {env : Env} {cfg : Config} {t : tenant} {evs : List Event}
    (h : StepOk env cfg t evs) :
    endpointCalls evs = [t.Branch] ∧ updateCalls evs = [t.ID] ∧
      (deleteCalls evs).Sublist [t.Branch] ∧ removeCalls evs = [] ∧ failedCalls evs = [] := by
  obtain ⟨h, b, rfl⟩ := h
  by_cases hc : b ≠ t.Branch ∧ b ≠ "" <;>
    simp [hc, endpointCalls, updateCalls, deleteCalls, removeCalls, failedCalls]

theorem stepFails_calls {env : Env} {cfg : Config} {t : tenant} {evs : List Event} {e : Err}
    (h : StepFails env cfg t evs e) :
    endpointCalls evs = [t.Branch] ∧ updateCalls evs <+: [t.ID] ∧
      (deleteCalls evs).Sublist [t.Branch] ∧ removeCalls evs = [] ∧
      (e = .createEndpointFailed ∨ e = .updateMainDbFailed ∨ e = .deleteBranchFailed) := by
  rcases h with ⟨rfl, rfl, -⟩ | ⟨_, rfl, rfl, -⟩ | ⟨_, _, rfl, rfl, -⟩ <;>
    simp [endpointCalls, updateCalls, deleteCalls, removeCalls]

theorem rollbackLoop_failure (env : Env) (cfg : Config) (S : Bool) (ts : List tenant) :
    ∀ w, w.file = some (.encoded ⟨S, ts⟩) →
      failedCalls (rollbackLoop env cfg ts.length ⟨S, ts⟩ w).world.trace ≠
        failedCalls w.trace →
      ∃ e w1 k U D, rollbackLoop env cfg ts.length ⟨S, ts⟩ w = .ret (some e) w1 ∧
        (e = .createEndpointFailed ∨ e = .updateMainDbFailed ∨ e = .deleteBranchFailed) ∧
        0 < k ∧ k ≤ ts.length ∧
        w1.file = some (.encoded ⟨S, ts.take k⟩) ∧
        endpointCalls w1.trace =
          endpointCalls w.trace ++ ((ts.drop (k - 1)).reverse.map tenant.Branch) ∧
        updateCalls w1.trace = updateCalls w.trace ++ U ∧
        U <+: (ts.drop (k - 1)).reverse.map tenant.ID ∧
        deleteCalls w1.trace = deleteCalls w.trace ++ D ∧
        D.Sublist ((ts.drop (k - 1)).reverse.map tenant.Branch) ∧
        removeCalls w1.trace = removeCalls w.trace := by
  induction ts using List.reverseRecOn with
  | nil => intro w _ h; exact absurd rfl h
  | append_singleton older t ih =>
    intro w hfile
    rw [List.length_append, List.length_singleton, rollbackLoop_succ]
    rcases rollbackBody_cases env cfg S older t w with
      ⟨evs, e, hb, hf⟩ | ⟨evs, hb, hok, -⟩ | ⟨evs, l, hb, hok, -⟩
    · intro _
      rw [hb]
      obtain ⟨c1, c2, c3, c4, c5⟩ := stepFails_calls hf
      refine ⟨e, w.emits evs, older.length + 1, updateCalls evs, deleteCalls evs, rfl, c5,
        by omega, le_refl _, ?_, ?_, ?_, ?_, ?_, ?_, ?_⟩
      · rw [file_emits, hfile]
        simp [List.take_of_length_le]
      · simp [c1]
      · simp
      · simpa using c2
      · simp
      · simpa using c3
      · simp [c4]
    · rw [hb]
      simp only [Res.bind_ret]
      obtain ⟨c1, c2, c3, c4, c5⟩ := stepOk_calls hok
      intro hfail
      have hfail1 : failedCalls (rollbackLoop env cfg older.length ⟨S, older⟩
          (((w.emits evs).emit (.writeFile ⟨S, older⟩ true)).setFile
            (some (.encoded ⟨S, older⟩)))).world.trace ≠
          failedCalls (((w.emits evs).emit (.writeFile ⟨S, older⟩ true)).setFile
            (some (.encoded ⟨S, older⟩))).trace := by
        simpa [c5, failedCalls] using hfail
      obtain ⟨e, w1, k, U, D, h1, h2, h3, h4, h5, h6, h7, h8, h9, h10, h11⟩ :=
        ih _ rfl hfail1
      have hd : (older ++ [t]).drop (k - 1) = older.drop (k - 1) ++ [t] :=
        List.drop_append_of_le_length (by omega)
      refine ⟨e, w1, k, t.ID :: U, deleteCalls evs ++ D, h1, h2, h3, by omega, ?_, ?_, ?_, ?_,
        ?_, ?_, ?_⟩
      · rw [h5, List.take_append_of_le_length h4]
      · rw [h6, hd]
        simp [c1, endpointCalls]
      · rw [h7]
        simp [c2, updateCalls]
      · rw [hd]
        simpa using h8
      · rw [h9]
        simp [deleteCalls]
      · rw [hd]
        simp only [List.reverse_append, List.reverse_singleton, List.singleton_append,
          List.map_cons]
        have hsub := List.Sublist.append c3 h10
        simpa using hsub
      · rw [h11]
        simp [c4, removeCalls]
    · rw [hb]
      intro hfail
      exact absurd (by simp [Res.world, (stepOk_calls hok).2.2.2.2, failedCalls]) hfail

/-- C9: `performRollback` is entered with the state file holding the given state, with
tenants `[T1, ..., Tn]`.  If the main-schema rollback command exits non-zero it returns an
error having run that command only, the state file unchanged.  If a provider or registry
call fails (endpoint creation, registry update, branch deletion), it returns an error and
there is a `k` (the failing entry is `Tk`) such that the state file holds exactly
`[T1, ..., Tk]`, endpoints were created for `Tn, ..., Tk` only, registry updates and branch
deletions were made for entries among `Tn, ..., Tk` only, and the state file was not
deleted. -/
theorem performRollback_failure (env : Env) (cfg : Config) (state : migrationProcess)
    (w : World) (hfile : w.file = some (.encoded state)) :
    (shellStatus (env.exec w.trace cfg.RollbackCommandName cfg.TenantSchemaConnectionURL) ≠ 0 →
      ∃ w1 c, performRollback env cfg state w = .ret (some .mainRollbackFailed) w1 ∧
        w1.file = w.file ∧ c ≠ 0 ∧
        w1.trace = w.trace ++
          [.exec cfg.RollbackCommandName cfg.TenantSchemaConnectionURL c]) ∧
    (failedCalls (performRollback env cfg state w).world.trace ≠ failedCalls w.trace →
      ∃ e w1 k U D, performRollback env cfg state w = .ret (some e) w1 ∧
        (e = .createEndpointFailed ∨ e = .updateMainDbFailed ∨ e = .deleteBranchFailed) ∧
        0 < k ∧ k ≤ state.Tenants.length ∧
        w1.file = some (.encoded { state with Tenants := state.Tenants.take k }) ∧
        endpointCalls w1.trace =
          endpointCalls w.trace ++ ((state.Tenants.drop (k - 1)).reverse.map tenant.Branch) ∧
        updateCalls w1.trace = updateCalls w.trace ++ U ∧
        U <+: (state.Tenants.drop (k - 1)).reverse.map tenant.ID ∧
        deleteCalls w1.trace = deleteCalls w.trace ++ D ∧
        D.Sublist ((state.Tenants.drop (k - 1)).reverse.map tenant.Branch) ∧
        removeCalls w1.trace = removeCalls w.trace) := by
  obtain ⟨S, ts⟩ := state
  constructor
  · intro h
    exact ⟨w.emit (.exec cfg.RollbackCommandName cfg.TenantSchemaConnectionURL
        (shellStatus (env.exec w.trace cfg.RollbackCommandName cfg.TenantSchemaConnectionURL))),
      shellStatus (env.exec w.trace cfg.RollbackCommandName cfg.TenantSchemaConnectionURL),
      performRollback_of_nonzero _ _ _ _ h, rfl, h, by simp⟩
  · by_cases hx : shellStatus
        (env.exec w.trace cfg.RollbackCommandName cfg.TenantSchemaConnectionURL) = 0
    · rw [performRollback_of_zero _ _ _ _ hx]
      intro hfail
      have hfail1 : failedCalls (rollbackLoop env cfg ts.length ⟨S, ts⟩
          (w.emit (.exec cfg.RollbackCommandName cfg.TenantSchemaConnectionURL 0))).world.trace ≠
          failedCalls
            (w.emit (.exec cfg.RollbackCommandName cfg.TenantSchemaConnectionURL 0)).trace := by
        intro heq
        apply hfail
        cases hr : rollbackLoop env cfg ts.length ⟨S, ts⟩
            (w.emit (.exec cfg.RollbackCommandName cfg.TenantSchemaConnectionURL 0)) with
        | ret a w2 =>
          rw [hr] at heq
          cases a with
          | none => simpa [Res.world, failedCalls] using heq
          | some e => simpa [Res.world, failedCalls] using heq
        | exit c w2 => rw [hr] at heq; simpa [Res.world, failedCalls] using heq
        | panicked w2 => rw [hr] at heq; simpa [Res.world, failedCalls] using heq
      obtain ⟨e, w1, k, U, D, h1, h2, h3, h4, h5, h6, h7, h8, h9, h10, h11⟩ :=
        rollbackLoop_failure env cfg S ts _ (by simpa using hfile) hfail1
      refine ⟨e, w1, k, U, D, by rw [h1]; rfl, h2, h3, h4, h5, ?_, ?_, h8, ?_, h10, ?_⟩
      · simpa [endpointCalls] using h6
      · simpa [updateCalls] using h7
      · simpa [deleteCalls] using h9
      · simpa [removeCalls] using h11
    · intro hfail
      exact absurd (by simp [performRollback_of_nonzero _ _ _ _ hx, Res.world, failedCalls])
        hfail

/-- Witness of `performRollback_failure`: endpoint creation fails for tenant 1 of the
scenario state after tenant 2 has been undone; the state file keeps tenant 1. -/
theorem performRollback_failure_witness :
    ∃ e w1 k U D, performRollback endpointFailEnv exampleConfig scenarioState
        ⟨some (.encoded scenarioState), []⟩ = .ret (some e) w1 ∧
      (e = .createEndpointFailed ∨ e = .updateMainDbFailed ∨ e = .deleteBranchFailed) ∧
      0 < k ∧ k ≤ scenarioState.Tenants.length ∧
      w1.file = some (.encoded { scenarioState with Tenants := scenarioState.Tenants.take k }) ∧
      endpointCalls w1.trace =
        endpointCalls [] ++ ((scenarioState.Tenants.drop (k - 1)).reverse.map tenant.Branch) ∧
      updateCalls w1.trace = updateCalls [] ++ U ∧
      U <+: (scenarioState.Tenants.drop (k - 1)).reverse.map tenant.ID ∧
      deleteCalls w1.trace = deleteCalls [] ++ D ∧
      D.Sublist ((scenarioState.Tenants.drop (k - 1)).reverse.map tenant.Branch) ∧
      removeCalls w1.trace = removeCalls [] :=
  (performRollback_failure endpointFailEnv exampleConfig scenarioState
    ⟨some (.encoded scenarioState), []⟩ rfl).2 (by decide)

/-! ## MigrationOrchestrator: the tenant loop -/

/-- The ways one iteration of the tenant loop on `row` goes: branch creation fails, the
state write fails, the migrate command exits non-zero, or the loop goes on with the next
row. -/
theorem tenantLoop_cons_cases (env : Env) (cfg : Config) (row : Row) (rest : List Row)
    (ending : RowsEnd) (S : Bool) (T : List tenant) (w : World) :
    (tenantLoop env cfg (row :: rest) ending ⟨S, T⟩ w =
        .ret (some .createBranchFailed, ⟨S, T⟩)
          (w.emit (.createBranch cfg.NeonProjectID row.branch none))) ∨
    (∃ b left, tenantLoop env cfg (row :: rest) ending ⟨S, T⟩ w =
        .exit 1 (((w.emit (.createBranch cfg.NeonProjectID row.branch (some b))).emit
          (.writeFile ⟨S, T ++ [⟨row.id, b⟩]⟩ false)).setFile left)) ∨
    (∃ b c, c ≠ 0 ∧ tenantLoop env cfg (row :: rest) ending ⟨S, T⟩ w =
        .ret (some (.migrationStatus c), ⟨S, T ++ [⟨row.id, b⟩]⟩)
          ((((w.emit (.createBranch cfg.NeonProjectID row.branch (some b))).emit
            (.writeFile ⟨S, T ++ [⟨row.id, b⟩]⟩ true)).setFile
              (some (.encoded ⟨S, T ++ [⟨row.id, b⟩]⟩))).emit
            (.exec cfg.MigrateCommandName row.connection c))) ∨
    (∃ b, tenantLoop env cfg (row :: rest) ending ⟨S, T⟩ w =
        tenantLoop env cfg rest ending ⟨S, T ++ [⟨row.id, b⟩]⟩
          ((((w.emit (.createBranch cfg.NeonProjectID row.branch (some b))).emit
            (.writeFile ⟨S, T ++ [⟨row.id, b⟩]⟩ true)).setFile
              (some (.encoded ⟨S, T ++ [⟨row.id, b⟩]⟩))).emit
            (.exec cfg.MigrateCommandName row.connection 0))) := by
  rw [tenantLoop]
  cases h1 : env.createProjectBranch w.trace cfg.NeonProjectID row.branch with
  | none => exact Or.inl rfl
  | some b =>
    right
    simp only []
    rcases write_cases env ⟨S, T ++ [⟨row.id, b⟩]⟩
        (w.emit (.createBranch cfg.NeonProjectID row.branch (some b))) with hw | ⟨l, hw⟩
    · right
      rw [hw.1]
      simp only [Res.bind_ret, performShellCommand]
      by_cases hc : shellStatus (env.exec
          (((w.emit (.createBranch cfg.NeonProjectID row.branch (some b))).emit
            (.writeFile ⟨S, T ++ [⟨row.id, b⟩]⟩ true)).setFile
              (some (.encoded ⟨S, T ++ [⟨row.id, b⟩]⟩))).trace
          cfg.MigrateCommandName row.connection) = 0
      · right
        refine ⟨b, ?_⟩
        rw [if_neg (by simpa using hc), hc]
      · left
        exact ⟨b, _, hc, by rw [if_pos hc]⟩
    · left
      exact ⟨b, l, by rw [hw.1]; rfl⟩

/-- Everything the tenant loop does, whatever way it ends: `bs` are the branches it
creates and `m` the number of migrate commands it runs. -/
theorem tenantLoop_run (env : Env) (cfg : Config) (ending : RowsEnd) (S : Bool)
    (rows : List Row) :
    ∀ T w, ∃ bs m, m ≤ bs.length ∧ bs.length ≤ rows.length ∧
      createdBranches (tenantLoop env cfg rows ending ⟨S, T⟩ w).world.trace =
        createdBranches w.trace ++ bs ∧
      execCalls (tenantLoop env cfg rows ending ⟨S, T⟩ w).world.trace =
        execCalls w.trace ++
          (rows.take m).map (fun row => (cfg.MigrateCommandName, row.connection)) ∧
      execSnapshots (tenantLoop env cfg rows ending ⟨S, T⟩ w).world.log =
        execSnapshots w.log ++
          (List.range m).map
            (fun k => some (.encoded ⟨S, T ++ (records rows bs).take (k + 1)⟩)) ∧
      endpointCalls (tenantLoop env cfg rows ending ⟨S, T⟩ w).world.trace =
        endpointCalls w.trace ∧
      (S = false →
        successWrites (tenantLoop env cfg rows ending ⟨S, T⟩ w).world.trace =
          successWrites w.trace) ∧
      (∀ e st w1, tenantLoop env cfg rows ending ⟨S, T⟩ w = .ret (e, st) w1 →
        st = ⟨S, T ++ records rows bs⟩ ∧
          ∀ c, e = some (.migrationStatus c) → c ≠ 0 ∧ 0 < m ∧ bs.length = m) := by
  induction rows with
  | nil =>
    intro T w
    refine ⟨[], 0, le_refl _, le_refl _, ?_⟩
    cases ending <;> simp [tenantLoop, Res.world, records]
  | cons row rest ih =>
    intro T w
    rcases tenantLoop_cons_cases env cfg row rest ending S T w with
      h | ⟨b, l, h⟩ | ⟨b, c, hc, h⟩ | ⟨b, h⟩
    · refine ⟨[], 0, le_refl _, by simp, ?_⟩
      rw [h]
      simp [Res.world, records, createdBranches, execCalls, execSnapshots, endpointCalls,
        successWrites]
    · refine ⟨[b], 0, by simp, by simp, ?_⟩
      rw [h]
      simp only [Res.world]
      refine ⟨by simp [createdBranches], by simp [execCalls], by simp [execSnapshots],
        by simp [endpointCalls], ?_, ?_⟩
      · intro hS; subst hS; simp [successWrites]
      · intro e st w1 hr; cases hr
    · refine ⟨[b], 1, by simp, by simp, ?_⟩
      rw [h]
      simp only [Res.world]
      refine ⟨by simp [createdBranches], by simp [execCalls],
        by simp [execSnapshots, records], by simp [endpointCalls], ?_, ?_⟩
      · intro hS; subst hS; simp [successWrites]
      · intro e st w1 hr
        cases hr
        refine ⟨by simp [records], ?_⟩
        intro c1 hc1
        cases hc1
        exact ⟨hc, by simp, rfl⟩
    · obtain ⟨bs, m, h1, h2, h3, h4, h5, h6, h7, h8⟩ := ih (T ++ [⟨row.id, b⟩])
        ((((w.emit (.createBranch cfg.NeonProjectID row.branch (some b))).emit
            (.writeFile ⟨S, T ++ [⟨row.id, b⟩]⟩ true)).setFile
              (some (.encoded ⟨S, T ++ [⟨row.id, b⟩]⟩))).emit
            (.exec cfg.MigrateCommandName row.connection 0))
      refine ⟨b :: bs, m + 1, by simpa using h1, by simpa using h2, ?_⟩
      rw [h]
      refine ⟨?_, ?_, ?_, ?_, ?_, ?_⟩
      · rw [h3]; simp [createdBranches]
      · rw [h4]; simp [execCalls]
      · rw [h5]
        simp [execSnapshots, records, List.range_succ_eq_map, Function.comp_def]
      · rw [h6]; simp [endpointCalls]
      · intro hS
        rw [h7 hS]
        subst hS
        simp [successWrites]
      · intro e st w1 hr
        obtain ⟨g1, g2⟩ := h8 e st w1 hr
        refine ⟨by simpa [records] using g1, ?_⟩
        intro c hc
        obtain ⟨k1, k2, k3⟩ := g2 c hc
        exact ⟨k1, by omega, by simp [k3]⟩

/-- C3: in the tenant loop of `migrate` (entered with the empty state) over the registry
rows `rows`, let `bs` be the branch ids returned by branch creation and `m` the number of
migrate commands run.  The migrate commands are run for the first `m` rows in order, and
when the `k`-th of them is started the state file holds `Success = false` and exactly the
first `k` records `(id(r1), b1), ..., (id(rk), bk)`.  When the loop returns, the in-memory
state (handed to the rollback on error) holds all records made, and if it returns because
a migrate command exited non-zero that command's record is the last of them. -/
theorem tenantLoop_persist_before_migrate (env : Env) (cfg : Config) (rows : List Row)
    (ending : RowsEnd) (w : World) :
    ∃ bs m, m ≤ bs.length ∧ bs.length ≤ rows.length ∧
      createdBranches (tenantLoop env cfg rows ending migrationProcess.zero w).world.trace =
        createdBranches w.trace ++ bs ∧
      execCalls (tenantLoop env cfg rows ending migrationProcess.zero w).world.trace =
        execCalls w.trace ++
          (rows.take m).map (fun row => (cfg.MigrateCommandName, row.connection)) ∧
      execSnapshots (tenantLoop env cfg rows ending migrationProcess.zero w).world.log =
        execSnapshots w.log ++
          (List.range m).map (fun k => some (.encoded ⟨false, (records rows bs).take (k + 1)⟩)) ∧
      (∀ e st w1, tenantLoop env cfg rows ending migrationProcess.zero w = .ret (e, st) w1 →
        st = ⟨false, records rows bs⟩ ∧
          ∀ c, e = some (.migrationStatus c) → c ≠ 0 ∧ 0 < m ∧ bs.length = m) := by
  obtain ⟨bs, m, h1, h2, h3, h4, h5, -, -, h8⟩ :=
    tenantLoop_run env cfg ending false rows [] w
  exact ⟨bs, m, h1, h2, h3, h4, by simpa using h5, by simpa using h8⟩

/-- Witness of `tenantLoop_persist_before_migrate`: the tenant loop of the scenario. -/
theorem tenantLoop_persist_before_migrate_witness :
    ∃ bs m, m ≤ bs.length ∧ bs.length ≤ scenarioRows.length ∧
      createdBranches (tenantLoop scenarioEnv exampleConfig scenarioRows .done
          migrationProcess.zero ⟨none, []⟩).world.trace = createdBranches [] ++ bs ∧
      execCalls (tenantLoop scenarioEnv exampleConfig scenarioRows .done
          migrationProcess.zero ⟨none, []⟩).world.trace =
        execCalls [] ++ (scenarioRows.take m).map (fun row => ("mig", row.connection)) ∧
      execSnapshots (tenantLoop scenarioEnv exampleConfig scenarioRows .done
          migrationProcess.zero ⟨none, []⟩).world.log =
        execSnapshots [] ++
          (List.range m).map
            (fun k => some (.encoded ⟨false, (records scenarioRows bs).take (k + 1)⟩)) ∧
      (∀ e st w1, tenantLoop scenarioEnv exampleConfig scenarioRows .done
          migrationProcess.zero ⟨none, []⟩ = .ret (e, st) w1 →
        st = ⟨false, records scenarioRows bs⟩ ∧
          ∀ c, e = some (.migrationStatus c) → c ≠ 0 ∧ 0 < m ∧ bs.length = m) :=
  tenantLoop_persist_before_migrate scenarioEnv exampleConfig scenarioRows .done ⟨none, []⟩

/-- The scenario of the specification, run through `main` from no state file: when the
second migrate command (the eighth operation, exiting 3) is started, the state file holds
the tenants `(1, b1)` and `(2, b2)`. -/
theorem scenario_state_file_at_failing_migrate :
    (main busyEnv exampleConfig ⟨none, []⟩).2.log[7]? =
      some ⟨.exec "mig" "c2" 3, some (.encoded scenarioState)⟩ := by
  decide

/-! ## MigrationOrchestrator: the connection the migrate command gets -/

/-- C8 as stated fails: in the scenario the tenant loop creates no endpoint, and the
migrate command is run with `CONNECTION_URL` set to the connection values `c1` and `c2`
read from the registry rows, which no host turns the built connection string into. -/
theorem tenantLoop_uses_registry_connection :
    (tenantLoop scenarioEnv exampleConfig scenarioRows .done migrationProcess.zero
        ⟨none, []⟩).world.trace =
      [.createBranch "pr" "b0" (some "b1"),
       .writeFile ⟨false, [⟨.int 1, "b1"⟩]⟩ true,
       .exec "mig" "c1" 0,
       .createBranch "pr" "b0" (some "b2"),
       .writeFile ⟨false, [⟨.int 1, "b1"⟩, ⟨.int 2, "b2"⟩]⟩ true,
       .exec "mig" "c2" 3] ∧
      ∀ host, connectionUrl scenarioEnv exampleConfig host ≠ "c1" ∧
        connectionUrl scenarioEnv exampleConfig host ≠ "c2" := by
  refine ⟨by decide, ?_⟩
  intro host
  constructor <;>
  · intro h
    have hl := congrArg String.length h
    simp [connectionUrl, scenarioEnv, exampleConfig, String.length_append] at hl
    have h1 : "/".length = 1 := by decide
    have h2 : "db".length = 2 := by decide
    have h3 : "c1".length = 2 := by decide
    have h4 : "c2".length = 2 := by decide
    omega

/-- C8 (amended): for every registry row processed by the tenant loop of `migrate`, the
migrate command is run with `CONNECTION_URL` set to the connection value read from that
registry row, and the loop creates no endpoint. -/
theorem tenantLoop_connection_from_row (env : Env) (cfg : Config) (rows : List Row)
    (ending : RowsEnd) (state : migrationProcess) (w : World) :
    ∃ m, m ≤ rows.length ∧
      execCalls (tenantLoop env cfg rows ending state w).world.trace =
        execCalls w.trace ++
          (rows.take m).map (fun row => (cfg.MigrateCommandName, row.connection)) ∧
      endpointCalls (tenantLoop env cfg rows ending state w).world.trace =
        endpointCalls w.trace := by
  obtain ⟨S, T⟩ := state
  obtain ⟨bs, m, h1, h2, -, h4, -, h6, -, -⟩ := tenantLoop_run env cfg ending S rows T w
  exact ⟨m, by omega, h4, h6⟩

/-! ## MigrationOrchestrator: when `Success = true` is written -/

theorem stepOk_successWrites {env : Env} {cfg : Config} {t : tenant} {evs : List Event}
    (h : StepOk env cfg t evs) : successWrites evs = [] := by
  obtain ⟨h, b, rfl⟩ := h
  by_cases hc : b ≠ t.Branch ∧ b ≠ "" <;> simp [hc, NeonBulkMigrator.successWrites]

theorem stepFails_successWrites {env : Env} {cfg : Config} {t : tenant} {evs : List Event}
    {e : Err} (h : StepFails env cfg t evs e) : successWrites evs = [] := by
  rcases h with ⟨rfl, -⟩ | ⟨_, rfl, -⟩ | ⟨_, _, rfl, -⟩ <;>
    simp [NeonBulkMigrator.successWrites]

/-- The rollback loop only adds operations, and writes no state with `Success = true`
when the state it is given has `Success = false`. -/
theorem rollbackLoop_trace (env : Env) (cfg : Config) (S : Bool) (ts : List tenant) :
    ∀ w, ∃ pre, (rollbackLoop env cfg ts.length ⟨S, ts⟩ w).world.trace = w.trace ++ pre ∧
      (S = false → successWrites pre = []) := by
  induction ts using List.reverseRecOn with
  | nil => intro w; exact ⟨[], by simp [rollbackLoop, Res.world], fun _ => rfl⟩
  | append_singleton older t ih =>
    intro w
    rw [List.length_append, List.length_singleton, rollbackLoop_succ]
    rcases rollbackBody_cases env cfg S older t w with
      ⟨evs, e, hb, hf⟩ | ⟨evs, hb, hok, -⟩ | ⟨evs, l, hb, hok, -⟩
    · rw [hb]
      exact ⟨evs, by simp [Res.world], fun _ => stepFails_successWrites hf⟩
    · rw [hb]
      simp only [Res.bind_ret]
      obtain ⟨pre, h1, h2⟩ := ih (((w.emits evs).emit (.writeFile ⟨S, older⟩ true)).setFile
          (some (.encoded ⟨S, older⟩)))
      refine ⟨evs ++ [.writeFile ⟨S, older⟩ true] ++ pre, by rw [h1]; simp, ?_⟩
      intro hS
      subst hS
      simp [stepOk_successWrites hok, h2 rfl, successWrites]
    · rw [hb]
      refine ⟨evs ++ [.writeFile ⟨S, older⟩ false], by simp [Res.world], ?_⟩
      intro hS
      subst hS
      simp [stepOk_successWrites hok, successWrites]

/-- `performRollback` only adds operations, and writes no state with `Success = true`
when the state it is given has `Success = false`. -/
theorem performRollback_trace (env : Env) (cfg : Config) (state : migrationProcess)
    (w : World) :
    ∃ pre, (performRollback env cfg state w).world.trace = w.trace ++ pre ∧
      (state.Success = false → successWrites pre = []) := by
  obtain ⟨S, ts⟩ := state
  by_cases hx : shellStatus
      (env.exec w.trace cfg.RollbackCommandName cfg.TenantSchemaConnectionURL) = 0
  · obtain ⟨pre, h1, h2⟩ := rollbackLoop_trace env cfg S ts
      (w.emit (.exec cfg.RollbackCommandName cfg.TenantSchemaConnectionURL 0))
    rw [performRollback_of_zero _ _ _ _ hx]
    cases hr : rollbackLoop env cfg ts.length ⟨S, ts⟩
        (w.emit (.exec cfg.RollbackCommandName cfg.TenantSchemaConnectionURL 0)) with
    | ret a w2 =>
      rw [hr] at h1
      simp only [Res.world] at h1
      cases a with
      | none =>
        refine ⟨[.exec cfg.RollbackCommandName cfg.TenantSchemaConnectionURL 0] ++ pre ++
          [.removeFile (env.remove w2.trace)], by simp [Res.world, h1], ?_⟩
        intro hS
        simp [h2 hS, successWrites]
      | some e =>
        refine ⟨[.exec cfg.RollbackCommandName cfg.TenantSchemaConnectionURL 0] ++ pre,
          by simp [Res.world, h1], ?_⟩
        intro hS
        simp [h2 hS, successWrites]
    | exit c w2 =>
      rw [hr] at h1
      simp only [Res.world] at h1
      refine ⟨[.exec cfg.RollbackCommandName cfg.TenantSchemaConnectionURL 0] ++ pre,
        by simp [Res.world, h1], ?_⟩
      intro hS
      simp [h2 hS, successWrites]
    | panicked w2 =>
      rw [hr] at h1
      simp only [Res.world] at h1
      refine ⟨[.exec cfg.RollbackCommandName cfg.TenantSchemaConnectionURL 0] ++ pre,
        by simp [Res.world, h1], ?_⟩
      intro hS
      simp [h2 hS, successWrites]
  · refine ⟨[.exec cfg.RollbackCommandName cfg.TenantSchemaConnectionURL (shellStatus
        (env.exec w.trace cfg.RollbackCommandName cfg.TenantSchemaConnectionURL))], ?_, ?_⟩
    · simp [performRollback_of_nonzero _ _ _ _ hx, Res.world]
    · intro _
      simp [successWrites]

/-- A tenant loop that runs to its end processed every row: it created a branch, wrote
the state and ran the migrate command with exit status 0 for each of them. -/
theorem tenantLoop_complete (env : Env) (cfg : Config) (ending : RowsEnd) (S : Bool)
    (rows : List Row) :
    ∀ T w st w1, tenantLoop env cfg rows ending ⟨S, T⟩ w = .ret (none, st) w1 →
      ∃ bs, bs.length = rows.length ∧ ending ≠ .scanError ∧
        st = ⟨S, T ++ records rows bs⟩ ∧
        w1.trace = w.trace ++ loopEvents cfg S T rows bs := by
  induction rows with
  | nil =>
    intro T w st w1 h
    refine ⟨[], rfl, ?_⟩
    cases ending <;> simp [tenantLoop] at h <;>
      (obtain ⟨rfl, rfl⟩ := h; simp [records, loopEvents])
  | cons row rest ih =>
    intro T w st w1 h
    rcases tenantLoop_cons_cases env cfg row rest ending S T w with
      h1 | ⟨b, l, h1⟩ | ⟨b, c, hc, h1⟩ | ⟨b, h1⟩
    · rw [h1] at h; cases h
    · rw [h1] at h; cases h
    · rw [h1] at h; cases h
    · rw [h1] at h
      obtain ⟨bs, g1, g2, g3, g4⟩ := ih _ _ _ _ h
      refine ⟨b :: bs, by simp [g1], g2, by simpa [records] using g3, ?_⟩
      rw [g4]
      simp [loopEvents]

theorem finish_false_world (env : Env) (cfg : Config) (state : migrationProcess)
    (err : Option Err) (w : World) :
    (finish env cfg false state err w).world = (performRollback env cfg state w).world := by
  simp only [finish, Bool.false_eq_true, if_false]
  cases performRollback env cfg state w with
  | ret a w1 => cases a <;> rfl
  | exit c w1 => rfl
  | panicked w1 => rfl

theorem finish_true_trace (env : Env) (cfg : Config) (state : migrationProcess)
    (err : Option Err) (w : World) :
    ∃ ok, (finish env cfg true state err w).world.trace =
      w.trace ++ [.writeFile ⟨true, state.Tenants⟩ ok] := by
  simp only [finish, if_true]
  rcases write_cases env ⟨true, state.Tenants⟩ w with h | ⟨l, h⟩
  · exact ⟨true, by rw [h.1]; simp [Res.world]⟩
  · exact ⟨false, by rw [h.1]; simp [Res.world]⟩

theorem migrateFresh_of_nonzero (env : Env) (cfg : Config) (w : World)
    (hx : shellStatus
      (env.exec w.trace cfg.MigrateCommandName cfg.TenantSchemaConnectionURL) ≠ 0) :
    migrateFresh env cfg w =
      .exit (shellStatus
          (env.exec w.trace cfg.MigrateCommandName cfg.TenantSchemaConnectionURL))
        (performShellCommand env cfg.RollbackCommandName cfg.TenantSchemaConnectionURL
          (w.emit (.exec cfg.MigrateCommandName cfg.TenantSchemaConnectionURL
            (shellStatus (env.exec w.trace cfg.MigrateCommandName
              cfg.TenantSchemaConnectionURL))))).2 := by
  simp [migrateFresh, performShellCommand, hx]

theorem migrateFresh_of_zero (env : Env) (cfg : Config) (w : World)
    (hx : shellStatus
      (env.exec w.trace cfg.MigrateCommandName cfg.TenantSchemaConnectionURL) = 0) :
    migrateFresh env cfg w =
      match env.query (w.trace ++
          [.exec cfg.MigrateCommandName cfg.TenantSchemaConnectionURL 0]) (selectSql cfg) with
      | .error =>
        finish env cfg false migrationProcess.zero (some .queryFailed)
          ((w.emit (.exec cfg.MigrateCommandName cfg.TenantSchemaConnectionURL 0)).emit
            (.query (selectSql cfg) .error))
      | .rows rs ending =>
        (tenantLoop env cfg rs ending migrationProcess.zero
          ((w.emit (.exec cfg.MigrateCommandName cfg.TenantSchemaConnectionURL 0)).emit
            (.query (selectSql cfg) (.rows rs ending)))).bind fun r w2 =>
          match r.1 with
          | some e => finish env cfg false r.2 (some e) w2
          | none => finish env cfg true r.2 none w2 := by
  simp only [migrateFresh, performShellCommand, hx, ne_eq, not_true_eq_false, if_false,
    trace_emit]
  cases env.query (w.trace ++
      [.exec cfg.MigrateCommandName cfg.TenantSchemaConnectionURL 0]) (selectSql cfg) <;> rfl

/-- A fresh migration writes a state with `Success = true` only as its last operation,
after the main-schema migrate command exited 0 and the tenant loop processed every row
the registry query delivered. -/
theorem migrateFresh_success_writes (env : Env) (cfg : Config) (w : World) :
    successWrites (migrateFresh env cfg w).world.trace = successWrites w.trace ∨
    ∃ rs ending bs ok, bs.length = rs.length ∧ ending ≠ .scanError ∧
      (migrateFresh env cfg w).world.trace =
        w.trace ++
          [.exec cfg.MigrateCommandName cfg.TenantSchemaConnectionURL 0,
           .query (selectSql cfg) (.rows rs ending)] ++
          loopEvents cfg false [] rs bs ++ [.writeFile ⟨true, records rs bs⟩ ok] := by
  by_cases hx : shellStatus
      (env.exec w.trace cfg.MigrateCommandName cfg.TenantSchemaConnectionURL) = 0
  · rw [migrateFresh_of_zero _ _ _ hx]
    cases hq : env.query (w.trace ++
        [.exec cfg.MigrateCommandName cfg.TenantSchemaConnectionURL 0]) (selectSql cfg) with
    | error =>
      left
      simp only []
      rw [finish_false_world]
      obtain ⟨pre, h1, h2⟩ := performRollback_trace env cfg migrationProcess.zero
        ((w.emit (.exec cfg.MigrateCommandName cfg.TenantSchemaConnectionURL 0)).emit
          (.query (selectSql cfg) .error))
      rw [h1]
      simp [h2 rfl, successWrites]
    | rows rs ending =>
      simp only []
      obtain ⟨bs, m, -, -, -, -, -, -, h7, h8⟩ := tenantLoop_run env cfg ending false rs []
        ((w.emit (.exec cfg.MigrateCommandName cfg.TenantSchemaConnectionURL 0)).emit
          (.query (selectSql cfg) (.rows rs ending)))
      have h7 := h7 rfl
      cases hr : tenantLoop env cfg rs ending migrationProcess.zero
          ((w.emit (.exec cfg.MigrateCommandName cfg.TenantSchemaConnectionURL 0)).emit
            (.query (selectSql cfg) (.rows rs ending))) with
      | ret a w2 =>
        obtain ⟨e, st⟩ := a
        have hr1 : tenantLoop env cfg rs ending ⟨false, []⟩
          ((w.emit (.exec cfg.MigrateCommandName cfg.TenantSchemaConnectionURL 0)).emit
            (.query (selectSql cfg) (.rows rs ending))) = .ret (e, st) w2 := hr
        rw [hr1] at h7
        simp only [Res.world] at h7
        cases e with
        | some e =>
          left
          simp only [Res.bind_ret]
          rw [finish_false_world]
          obtain ⟨pre, h1, h2⟩ := performRollback_trace env cfg st w2
          have hst : st.Success = false := by rw [(h8 _ _ _ hr1).1]
          rw [h1]
          simp [h2 hst, h7, successWrites]
        | none =>
          right
          simp only [Res.bind_ret]
          obtain ⟨bs1, g1, g2, g3, g4⟩ := tenantLoop_complete env cfg ending false rs [] _ _ _ hr1
          obtain ⟨ok, hok⟩ := finish_true_trace env cfg st none w2
          refine ⟨rs, ending, bs1, ok, g1, g2, ?_⟩
          rw [hok, g4, g3]
          simp
      | exit c w2 =>
        left
        have hr1 : tenantLoop env cfg rs ending ⟨false, []⟩
          ((w.emit (.exec cfg.MigrateCommandName cfg.TenantSchemaConnectionURL 0)).emit
            (.query (selectSql cfg) (.rows rs ending))) = .exit c w2 := hr
        rw [hr1] at h7
        simpa [Res.world, successWrites] using h7
      | panicked w2 =>
        left
        have hr1 : tenantLoop env cfg rs ending ⟨false, []⟩
          ((w.emit (.exec cfg.MigrateCommandName cfg.TenantSchemaConnectionURL 0)).emit
            (.query (selectSql cfg) (.rows rs ending))) = .panicked w2 := hr
        rw [hr1] at h7
        simpa [Res.world, successWrites] using h7
  · left
    rw [migrateFresh_of_nonzero _ _ _ hx]
    simp [Res.world, performShellCommand, successWrites]

/-- C10 as stated fails: a rollback-mode run on the state file of a finished migration
(`Success = true`, tenant `(1, b1)`) runs no migrate command at all and writes the state
with `Success = true` and no tenants. -/
theorem rollback_mode_writes_success_state :
    (migrate scenarioEnv rollbackConfig
        ⟨some (.encoded ⟨true, [⟨.int 1, "b1"⟩]⟩), []⟩).world.trace =
      [.exec "rb" "schema" 0,
       .createEndpoint "pr" "b1" (some "h-b1"),
       .updateRow "UPDATE t SET b = $1, c = $2 WHERE i = $3 RETURNING b"
         "postgresql://r:p@h-b1/db" (.int 1) (some ""),
       .writeFile ⟨true, []⟩ true,
       .removeFile true] := by
  decide

/-- The registry row stream breaking off is not noticed: `migrate` never looks at
`rows.Err()`, so with the stream of `brokenStreamEnv` the run ends by writing
`Success = true` after one tenant. -/
theorem broken_row_stream_counts_as_success :
    (migrate brokenStreamEnv exampleConfig ⟨none, []⟩).world.trace =
      [.exec "mig" "schema" 0,
       .query "SELECT i, b, c FROM t" (.rows [⟨.int 1, "b0", "c1"⟩] .iterError),
       .createBranch "pr" "b0" (some "b1"),
       .writeFile ⟨false, [⟨.int 1, "b1"⟩]⟩ true,
       .exec "mig" "c1" 0,
       .writeFile ⟨true, [⟨.int 1, "b1"⟩]⟩ true] := by
  decide

/-- C10 (amended): in a run of `migrate` outside rollback mode, a state with
`Success = true` is written only as the last operation of the run, after the main-schema
migrate command exited 0 and, for every row the registry query delivered, branch creation
succeeded, the state was written and the migrate command exited 0 (before that the run
made at most a dirty-resume rollback, which writes no such state).  And when the tenant
loop is left with an error (scan failure, branch-creation failure, non-zero migrate
exit), the fresh migration continues with `performRollback` on the in-memory state the
loop ended with, exits 1 if that fails and returns the loop's error otherwise, and no
state with `Success = true` is written. -/
theorem migrate_success_write (env : Env) (cfg : Config) (w : World)
    (hmode : cfg.RollbackMode = false) :
    (successWrites (migrate env cfg w).world.trace = successWrites w.trace ∨
      ∃ pre rs ending bs ok, successWrites pre = [] ∧ bs.length = rs.length ∧
        ending ≠ .scanError ∧
        (migrate env cfg w).world.trace =
          w.trace ++ pre ++
            [.exec cfg.MigrateCommandName cfg.TenantSchemaConnectionURL 0,
             .query (selectSql cfg) (.rows rs ending)] ++
            loopEvents cfg false [] rs bs ++ [.writeFile ⟨true, records rs bs⟩ ok]) ∧
    (∀ rs ending e st w1,
      shellStatus (env.exec w.trace cfg.MigrateCommandName cfg.TenantSchemaConnectionURL) = 0 →
      env.query (w.trace ++ [.exec cfg.MigrateCommandName cfg.TenantSchemaConnectionURL 0])
        (selectSql cfg) = .rows rs ending →
      tenantLoop env cfg rs ending migrationProcess.zero
        ((w.emit (.exec cfg.MigrateCommandName cfg.TenantSchemaConnectionURL 0)).emit
          (.query (selectSql cfg) (.rows rs ending))) = .ret (some e, st) w1 →
      migrateFresh env cfg w =
          ((performRollback env cfg st w1).bind fun rerr w2 =>
            match rerr with
            | some _ => .exit 1 w2
            | none => .ret (some e) w2) ∧
        successWrites (migrateFresh env cfg w).world.trace = successWrites w.trace) := by
  constructor
  · unfold migrate
    by_cases h1 : env.newClient = true
    swap
    · left; simp [h1, Res.world]
    by_cases h2 : env.connect = true
    swap
    · left; simp [h1, h2, Res.world]
    by_cases h3 : env.ping = true
    swap
    · left; simp [h1, h2, h3, Res.world]
    simp only [h1, h2, h3, Bool.not_true, Bool.false_eq_true, if_false, hmode]
    cases hl : loadState env cfg w with
    | error e => left; rfl
    | ok state =>
      simp only []
      by_cases hd : (!state.Success) = true ∧ state.Tenants.length ≠ 0
      · rw [if_pos hd]
        have hS : state.Success = false := by simpa using hd.1
        obtain ⟨pre, hp1, hp2⟩ := performRollback_trace env cfg state w
        cases hr : performRollback env cfg state w with
        | ret a w1 =>
          rw [hr] at hp1
          simp only [Res.world] at hp1
          cases a with
          | some e => left; simp [Res.world, hp1, hp2 hS]
          | none =>
            simp only [Res.bind_ret]
            rcases migrateFresh_success_writes env cfg w1 with hm | ⟨rs, ending, bs, ok, g1, g2, g3⟩
            · left; rw [hm, hp1]; simp [hp2 hS]
            · right
              exact ⟨pre, rs, ending, bs, ok, hp2 hS, g1, g2, by rw [g3, hp1]⟩
        | exit c w1 =>
          rw [hr] at hp1
          left; simpa [Res.world, hp2 hS] using congrArg successWrites hp1
        | panicked w1 =>
          rw [hr] at hp1
          left; simpa [Res.world, hp2 hS] using congrArg successWrites hp1
      · rw [if_neg hd]
        rcases migrateFresh_success_writes env cfg w with hm | ⟨rs, ending, bs, ok, g1, g2, g3⟩
        · left; exact hm
        · right
          exact ⟨[], rs, ending, bs, ok, rfl, g1, g2, by rw [g3]; simp⟩
  · intro rs ending e st w1 hx hq hloop
    have hfresh : migrateFresh env cfg w =
        ((performRollback env cfg st w1).bind fun rerr w2 =>
          match rerr with
          | some _ => .exit 1 w2
          | none => .ret (some e) w2) := by
      rw [migrateFresh_of_zero _ _ _ hx, hq]
      simp only [hloop, Res.bind_ret, finish, Bool.false_eq_true, if_false]
    refine ⟨hfresh, ?_⟩
    obtain ⟨bs0, m, -, -, -, -, -, -, h7, h8⟩ := tenantLoop_run env cfg ending false rs []
      ((w.emit (.exec cfg.MigrateCommandName cfg.TenantSchemaConnectionURL 0)).emit
        (.query (selectSql cfg) (.rows rs ending)))
    have hloop1 : tenantLoop env cfg rs ending ⟨false, []⟩
        ((w.emit (.exec cfg.MigrateCommandName cfg.TenantSchemaConnectionURL 0)).emit
          (.query (selectSql cfg) (.rows rs ending))) = .ret (some e, st) w1 := hloop
    have h7 := h7 rfl
    rw [hloop1] at h7
    simp only [Res.world] at h7
    have hst : st.Success = false := by rw [(h8 _ _ _ hloop1).1]
    obtain ⟨pre, hp1, hp2⟩ := performRollback_trace env cfg st w1
    have hw : (migrateFresh env cfg w).world = (performRollback env cfg st w1).world := by
      rw [hfresh]
      cases performRollback env cfg st w1 with
      | ret a w2 => cases a <;> rfl
      | exit c w2 => rfl
      | panicked w2 => rfl
    rw [hw, hp1]
    simp [hp2 hst, h7, successWrites]

/-- Witness of `migrate_success_write`: with every command succeeding (`successEnv`) the
run from no state file ends by writing `Success = true` with both tenants recorded. -/
theorem migrate_success_write_witness :
    ∃ pre rs ending bs ok, successWrites pre = [] ∧ bs.length = rs.length ∧
      ending ≠ .scanError ∧
      (migrate successEnv exampleConfig ⟨none, []⟩).world.trace =
        [] ++ pre ++
          [.exec "mig" "schema" 0, .query (selectSql exampleConfig) (.rows rs ending)] ++
          loopEvents exampleConfig false [] rs bs ++ [.writeFile ⟨true, records rs bs⟩ ok] :=
  (migrate_success_write successEnv exampleConfig ⟨none, []⟩ rfl).1.resolve_left (by decide)

/-! ## Runs depend on the world only through the operations performed so far -/

theorem sameRun_bind {α β : Type} {r r1 : Res α} {f f1 : α → World → Res β}
    (h : SameRun r r1)
    (hf : ∀ a w w1, w.trace = w1.trace → SameRun (f a w) (f1 a w1)) :
    SameRun (r.bind f) (r1.bind f1) := by
  cases r <;> cases r1 <;> simp [SameRun, Res.outcome, Res.world] at h
  · obtain ⟨rfl, h⟩ := h
    exact hf _ _ _ h
  · exact ⟨by simp [Res.bind, Res.outcome, h.1], by simpa [Res.bind, Res.world] using h.2⟩
  · exact ⟨rfl, by simpa [Res.bind, Res.world] using h⟩

theorem write_sameRun (env : Env) (m : migrationProcess) {w w1 : World}
    (h : w.trace = w1.trace) : SameRun (m.write env w) (m.write env w1) := by
  simp only [migrationProcess.write, ← h]
  cases env.writeFile w.trace m <;> simp [SameRun, Res.outcome, Res.world, h]

theorem removeAndWrite_sameRun (env : Env) (i : Nat) (state : migrationProcess) {w w1 : World}
    (h : w.trace = w1.trace) :
    SameRun (removeAndWrite env i state w) (removeAndWrite env i state w1) := by
  simp only [removeAndWrite]
  exact sameRun_bind (write_sameRun env _ h) fun _ _ _ h1 => ⟨rfl, h1⟩

theorem rollbackBody_sameRun (env : Env) (cfg : Config) (i : Nat) (state : migrationProcess)
    {w w1 : World} (h : w.trace = w1.trace) :
    SameRun (rollbackBody env cfg i state w) (rollbackBody env cfg i state w1) := by
  simp only [rollbackBody, trace_emit, ← h]
  split
  · exact ⟨rfl, h⟩
  · split
    · exact ⟨rfl, by simp [Res.world, h]⟩
    · split
      · exact ⟨rfl, by simp [Res.world, h]⟩
      · split
        · split
          · exact removeAndWrite_sameRun env i state (by simp [h])
          · exact ⟨rfl, by simp [Res.world, h]⟩
        · exact removeAndWrite_sameRun env i state (by simp [h])

theorem rollbackLoop_sameRun (env : Env) (cfg : Config) (i : Nat) :
    ∀ (state : migrationProcess) (w w1 : World), w.trace = w1.trace →
      SameRun (rollbackLoop env cfg i state w) (rollbackLoop env cfg i state w1) := by
  induction i with
  | zero => intro state w w1 h; exact ⟨rfl, h⟩
  | succ i ih =>
    intro state w w1 h
    rw [rollbackLoop_succ, rollbackLoop_succ]
    refine sameRun_bind (rollbackBody_sameRun env cfg i state h) ?_
    intro r w2 w3 h2
    cases r.1 with
    | none => exact ih _ _ _ h2
    | some e => exact ⟨rfl, h2⟩

theorem performRollback_sameRun (env : Env) (cfg : Config) (state : migrationProcess)
    {w w1 : World} (h : w.trace = w1.trace) :
    SameRun (performRollback env cfg state w) (performRollback env cfg state w1) := by
  simp only [performRollback, performShellCommand, ← h]
  split
  · exact ⟨rfl, by simp [Res.world, h]⟩
  · refine sameRun_bind (rollbackLoop_sameRun env cfg _ state _ _ (by simp [h])) ?_
    intro err w2 w3 h2
    cases err with
    | none => exact ⟨rfl, by simp [Res.world, h2]⟩
    | some e => exact ⟨rfl, h2⟩

theorem tenantLoop_sameRun (env : Env) (cfg : Config) (ending : RowsEnd) (rows : List Row) :
    ∀ (state : migrationProcess) (w w1 : World), w.trace = w1.trace →
      SameRun (tenantLoop env cfg rows ending state w)
        (tenantLoop env cfg rows ending state w1) := by
  induction rows with
  | nil =>
    intro state w w1 h
    cases ending <;> exact ⟨rfl, h⟩
  | cons row rest ih =>
    intro state w w1 h
    simp only [tenantLoop, ← h]
    split
    · exact ⟨rfl, by simp [Res.world, h]⟩
    · refine sameRun_bind (write_sameRun env _ (by simp [h])) ?_
      intro _ w2 w3 h2
      simp only [performShellCommand, ← h2]
      split
      · exact ⟨rfl, by simp [Res.world, h2]⟩
      · exact ih _ _ _ (by simp [h2])

theorem finish_sameRun (env : Env) (cfg : Config) (ok : Bool) (state : migrationProcess)
    (err : Option Err) {w w1 : World} (h : w.trace = w1.trace) :
    SameRun (finish env cfg ok state err w) (finish env cfg ok state err w1) := by
  simp only [finish]
  split
  · exact sameRun_bind (write_sameRun env _ h) fun _ _ _ h1 => ⟨rfl, h1⟩
  · refine sameRun_bind (performRollback_sameRun env cfg state h) ?_
    intro rerr w2 w3 h2
    cases rerr <;> exact ⟨rfl, h2⟩

theorem migrateFresh_sameRun (env : Env) (cfg : Config) {w w1 : World}
    (h : w.trace = w1.trace) :
    SameRun (migrateFresh env cfg w) (migrateFresh env cfg w1) := by
  simp only [migrateFresh, performShellCommand, trace_emit, ← h]
  split
  · exact ⟨rfl, by simp [Res.world, h]⟩
  · split
    · exact finish_sameRun env cfg false _ _ (by simp [h])
    · refine sameRun_bind (tenantLoop_sameRun env cfg _ _ _ _ _ (by simp [h])) ?_
      intro r w2 w3 h2
      cases r.1 with
      | none => exact finish_sameRun env cfg true _ _ h2
      | some e => exact finish_sameRun env cfg false _ _ h2

/-- The rollback does not read the `--rollback-mode` flag. -/
theorem rollbackLoop_mode (env : Env) (cfg : Config) (b : Bool) (i : Nat) :
    ∀ (state : migrationProcess) (w : World),
      rollbackLoop env { cfg with RollbackMode := b } i state w =
        rollbackLoop env cfg i state w := by
  induction i with
  | zero => intro state w; rfl
  | succ i ih =>
    intro state w
    rw [rollbackLoop_succ, rollbackLoop_succ]
    have hb : rollbackBody env { cfg with RollbackMode := b } i state w =
        rollbackBody env cfg i state w := rfl
    rw [hb]
    congr 1
    funext r w1
    cases r.1 with
    | none => exact ih _ _
    | some e => rfl

theorem performRollback_mode (env : Env) (cfg2 : Config) (b : Bool) (state : migrationProcess)
    (w : World) :
    performRollback env { cfg2 with RollbackMode := b } state w =
      performRollback env cfg2 state w := by
  simp only [performRollback, rollbackLoop_mode]

/-! ## MigrationOrchestrator: dirty resume -/

/-- C6: a normal run that loads a state with `Success = false` and a non-empty tenant
list behaves like a rollback-mode run on that state followed by a normal run started
without state file.  If the rollback-mode run returns without error in the world `w1`,
the normal run is the fresh migration (starting from the empty state) continued from
`w1`, and it ends the same way after the same sequence of external operations as a
normal run started from `w1` with the state file removed.  In every other case (the
rollback fails, or the process exits in it) the normal run is that rollback-mode run and
starts no migration. -/
theorem dirty_resume_equivalence (env : Env) (cfg : Config) (state : migrationProcess)
    (w : World) (hmode : cfg.RollbackMode = false)
    (hload : loadState env cfg w = .ok state) (hS : state.Success = false)
    (hT : state.Tenants ≠ []) :
    (∀ w1, migrate env { cfg with RollbackMode := true } w = .ret none w1 →
      migrate env cfg w = migrateFresh env cfg w1 ∧
        SameRun (migrate env cfg w) (migrate env cfg (w1.setFile none))) ∧
    ((∀ w1, migrate env { cfg with RollbackMode := true } w ≠ .ret none w1) →
      migrate env cfg w = migrate env { cfg with RollbackMode := true } w) := by
  have hread : readFile env w = .data (.encoded state) := by
    unfold loadState at hload
    cases hr : readFile env w with
    | data d =>
      rw [hr] at hload
      cases d with
      | encoded s => simp [loadStateOf, unmarshal] at hload; rw [hload]
      | garbage => simp [loadStateOf, unmarshal] at hload
    | notExist =>
      rw [hr] at hload
      simp [loadStateOf, hmode, migrationProcess.zero] at hload
      rw [← hload] at hT
      exact absurd rfl hT
    | otherError =>
      rw [hr] at hload
      simp [loadStateOf] at hload
  have hdenied : env.readDenied = false := by
    unfold readFile at hread
    cases hd : env.readDenied with
    | false => rfl
    | true => rw [hd] at hread; simp at hread
  have hloadR : loadState env { cfg with RollbackMode := true } w = .ok state := by
    simp [loadState, hread, loadStateOf, unmarshal]
  have hlen : state.Tenants.length ≠ 0 := by
    intro h; exact hT (List.length_eq_zero.mp h)
  have hdirty : (!state.Success) = true ∧ state.Tenants.length ≠ 0 := ⟨by simp [hS], hlen⟩
  by_cases h1 : env.newClient = true
  swap
  · constructor
    · intro w1 h; simp [migrate, h1] at h
    · intro _; simp [migrate, h1]
  by_cases h2 : env.connect = true
  swap
  · constructor
    · intro w1 h; simp [migrate, h1, h2] at h
    · intro _; simp [migrate, h1, h2]
  by_cases h3 : env.ping = true
  swap
  · constructor
    · intro w1 h; simp [migrate, h1, h2, h3] at h
    · intro _; simp [migrate, h1, h2, h3]
  have hR : migrate env { cfg with RollbackMode := true } w =
      performRollback env cfg state w := by
    simp only [migrate, h1, h2, h3, hloadR, Bool.not_true, Bool.false_eq_true, if_false,
      if_true]
    exact performRollback_mode env cfg true state w
  have hN : migrate env cfg w =
      (performRollback env cfg state w).bind fun err w1 =>
        match err with
        | some e => .ret (some e) w1
        | none => migrateFresh env cfg w1 := by
    simp only [migrate, h1, h2, h3, hload, hmode, Bool.not_true, Bool.false_eq_true, if_false]
    rw [if_pos hdirty]
  constructor
  · intro w1 h
    rw [hR] at h
    have hN1 : migrate env cfg w = migrateFresh env cfg w1 := by rw [hN, h]; rfl
    refine ⟨hN1, ?_⟩
    have hF : migrate env cfg (w1.setFile none) = migrateFresh env cfg (w1.setFile none) := by
      simp [migrate, h1, h2, h3, loadState, readFile, hdenied, loadStateOf, hmode,
        migrationProcess.zero]
    rw [hN1, hF]
    exact migrateFresh_sameRun env cfg rfl
  · intro h
    rw [hR] at h ⊢
    rw [hN]
    cases hr : performRollback env cfg state w with
    | ret a w1 =>
      cases a with
      | none => exact absurd hr (h w1)
      | some e => rfl
    | exit c w1 => rfl
    | panicked w1 => rfl

/-- Witness of `dirty_resume_equivalence`: the state file holds the two tenants of the
scenario with `Success = false` and every command succeeds; the normal run does what the
rollback-mode run followed by a normal run without state file does. -/
theorem dirty_resume_equivalence_witness :
    migrate successEnv exampleConfig ⟨some (.encoded scenarioState), []⟩ =
        migrateFresh successEnv exampleConfig
          (migrate successEnv rollbackConfig ⟨some (.encoded scenarioState), []⟩).world ∧
      SameRun (migrate successEnv exampleConfig ⟨some (.encoded scenarioState), []⟩)
        (migrate successEnv exampleConfig
          ((migrate successEnv rollbackConfig
            ⟨some (.encoded scenarioState), []⟩).world.setFile none)) :=
  (dirty_resume_equivalence successEnv exampleConfig scenarioState
    ⟨some (.encoded scenarioState), []⟩ rfl rfl rfl (by decide)).1 _ rfl

/-! ## Process exit status -/

/-- C5, evaluated on three fatal errors: an undecodable state file, a rollback failing in
rollback mode, and the automatic dirty-resume rollback failing.  In each of them `migrate`
returns the error and the process ends with status 0, because `main` discards the error
that `mainCmd.Execute()` returns. -/
theorem main_exit_status_on_fatal_errors :
    ((migrate scenarioEnv exampleConfig ⟨some .garbage, []⟩).outcome =
        .returned (some .decodeFailed) ∧
      (main scenarioEnv exampleConfig ⟨some .garbage, []⟩).1 = 0) ∧
    ((migrate endpointFailEnv rollbackConfig ⟨some (.encoded scenarioState), []⟩).outcome =
        .returned (some .createEndpointFailed) ∧
      (main endpointFailEnv rollbackConfig ⟨some (.encoded scenarioState), []⟩).1 = 0) ∧
    ((migrate endpointFailEnv exampleConfig ⟨some (.encoded scenarioState), []⟩).outcome =
        .returned (some .createEndpointFailed) ∧
      (main endpointFailEnv exampleConfig ⟨some (.encoded scenarioState), []⟩).1 = 0) := by
  decide

end NeonBulkMigrator
